import Mathlib

/-!
# The container store node of the executor

A shallow embedding of `depot/containerstore/storenode.go`: the per-container
store node, its lifecycle methods and the helpers they use; and of
`actionrunner/action_runner.go`: the action runner.

Conventions of the embedding.

* A Go `error` result is an `Option GoError`; `none` is `nil`.
* The collaborators of a node (dependency manager, volume manager, proxy
  manager, credential manager, transformer, sandbox provider, log streamer,
  event hub, supervisor process) are not part of the sources.  Every call made
  to one of them is appended to a log of `Call`s, and what the collaborator
  answers is read from a `World`, over which the theorems quantify.
* `go n.eventEmitter.Emit(e)` is the log entry `Call.Emit e`: the argument of
  a `go` statement is evaluated where the statement stands.
* The two mutexes only order the steps of concurrent callers; one method call
  is embedded as one function from the node to the node.  The goroutine
  started by `Run` is the separate function `storeNode.run`.
* Calls to the `lager` logger and the duration metrics are diagnostics and are
  left out of the log.
* Machine integers are `Nat`/`Int` with the wrap-around written out.
-/

namespace Executor

/-! ## Errors -/

mutual
/-- Go `error` values as far as the store node tells them apart: the sentinel
`executor.ErrInvalidTransition`, the type `garden.ContainerNotFoundError`, the
type `grouper.ErrorTrace`, and every other error, known by its message. -/
inductive GoError where
  | ErrInvalidTransition
  | ContainerNotFoundError (handle : String)
  | errorString (msg : String)
  | ErrorTrace (trace : ExitTrace)
/-- The `grouper.ErrorTrace` slice of exit events, each a member name and the
error the member exited with (`exited` when that error is nil). -/
inductive ExitTrace where
  | nil
  | exited (member : String) (rest : ExitTrace)
  | failed (member : String) (err : GoError) (rest : ExitTrace)
end

mutual
/-- The method `Error()` of an error value.  The texts of the error types that
live outside the sources (`grouper.ErrorTrace`, `garden.ContainerNotFoundError`
and the sentinel of package executor) follow those libraries. -/
def GoError.Error : GoError → String
  | .ErrInvalidTransition => "InvalidStateTransition"
  | .ContainerNotFoundError handle => "unknown handle: " ++ handle
  | .errorString msg => msg
  | .ErrorTrace trace => "Exit trace for group:\n" ++ ExitTrace.lines trace
/-- The lines `ErrorTrace.Error()` prints, one for each exit event. -/
def ExitTrace.lines : ExitTrace → String
  | .nil => ""
  | .exited member rest => member ++ " exited with nil\n" ++ ExitTrace.lines rest
  | .failed member err rest =>
      member ++ " exited with error: " ++ GoError.Error err ++ "\n" ++ ExitTrace.lines rest
end

/-! ## The container (package executor) -/

/-- The lifecycle states of a container. -/
inductive State where
  | Reserved
  | Initializing
  | Created
  | Running
  | Completed
deriving DecidableEq, Repr

/-- `executor.ContainerRunResult`. -/
structure ContainerRunResult where
  Failed : Bool
  FailureReason : String
  Stopped : Bool
deriving DecidableEq, Repr

/-- `executor.PortMapping`; the four ports are `uint16`. -/
structure PortMapping where
  HostPort : Nat
  ContainerPort : Nat
  ContainerTLSProxyPort : Nat
  HostTLSProxyPort : Nat
deriving DecidableEq, Repr

/-- `executor.ProxyPortMapping`; both ports are `uint16`. -/
structure ProxyPortMapping where
  AppPort : Nat
  ProxyPort : Nat
deriving DecidableEq, Repr

/-- `executor.EnvironmentVariable`. -/
structure EnvironmentVariable where
  Name : String
  Value : String
deriving DecidableEq, Repr

/-- `executor.VolumeMount`. -/
structure VolumeMount where
  Driver : String
  VolumeId : String
  Config : String
  ContainerPath : String
  Mode : Nat
deriving DecidableEq, Repr

/-- The run parameters a `RunRequest` attaches to a container. -/
structure RunInfo where
  RootFSPath : String
  ImageUsername : String
  ImagePassword : String
  Privileged : Bool
  Env : List EnvironmentVariable
  Ports : List PortMapping
  LogConfig : String
  CachedDependencies : List String
  VolumeMounts : List VolumeMount
  EgressRules : List String
  TrustedSystemCertificatesPath : String
  Network : Option (List (String × String))
deriving DecidableEq, Repr

/-- `executor.RunRequest`. -/
structure RunRequest where
  RunInfo : RunInfo
deriving DecidableEq, Repr

/-- `executor.Container`, the `info` of a store node.  `AllocatedAt` is in
nanoseconds since the Unix epoch (`int64`); `MemoryMB`, `DiskMB` and `MaxPids`
are Go `int`s, `CPUWeight` a `uint`, `MemoryLimit` and `DiskLimit` `uint64`. -/
structure Container where
  Guid : String
  State : State
  AllocatedAt : Int
  MemoryMB : Int
  DiskMB : Int
  CPUWeight : Nat
  MaxPids : Int
  DiskScope : String
  RunInfo : RunInfo
  ExternalIP : String
  InternalIP : String
  MemoryLimit : Nat
  DiskLimit : Nat
  RunResult : ContainerRunResult
deriving DecidableEq, Repr

/-- Modelled from the spec: `Container.ValidateTransitionTo` is declared in
package executor, outside the sources.  The state machine table of the spec
allows Reserved → Initializing, Initializing → Created, Created → Running and
any non-terminal state → Completed.  storenode.go itself asks it about the
target state Created only. -/
def Container.ValidateTransitionTo (c : Container) (newState : Executor.State) : Bool :=
  match c.State, newState with
  | .Reserved, .Initializing => true
  | .Initializing, .Created => true
  | .Created, .Running => true
  | .Completed, .Completed => false
  | _, .Completed => true
  | _, _ => false

/-- Modelled from the spec: `Container.TransistionToInitialize` is declared in
package executor, outside the sources.  "Initialize(req) attaches run
parameters to info and transitions Reserved → Initializing.  Fails with
ErrInvalidTransition otherwise." -/
def Container.TransistionToInitialize (c : Container) (req : RunRequest) :
    Container × Option GoError :=
  if c.ValidateTransitionTo .Initializing then
    ({ c with State := .Initializing, RunInfo := req.RunInfo }, none)
  else (c, some .ErrInvalidTransition)

/-- Modelled from the spec: `Container.TransistionToCreate` is declared in
package executor, outside the sources.  It moves Initializing → Created and
fails with ErrInvalidTransition from any other state. -/
def Container.TransistionToCreate (c : Container) : Container × Option GoError :=
  if c.ValidateTransitionTo .Created then ({ c with State := .Created }, none)
  else (c, some .ErrInvalidTransition)

/-- Modelled from the spec: `Container.TransitionToComplete` is declared in
package executor, outside the sources.  The spec has `complete(failed, reason)`
close the node "in the Completed state" with that outcome; every call site in
storenode.go uses it as a statement without a result and emits the completion
event right after it, so it is the plain assignment of the three fields. -/
def Container.TransitionToComplete (c : Container) (failed : Bool) (failureReason : String) :
    Container :=
  { c with
    State := .Completed
    RunResult := { c.RunResult with Failed := failed, FailureReason := failureReason } }

/-- Modelled from the spec: `Container.IsCreated` is declared in package
executor, outside the sources; Reap acts "if state is Created". -/
def Container.IsCreated (c : Container) : Bool :=
  c.State == .Created

/-! ## Time (package time) -/

/-- The least `time.Duration`, an `int64` count of nanoseconds. -/
def minDuration : Int := -(2 ^ 63)

/-- The greatest `time.Duration`. -/
def maxDuration : Int := 2 ^ 63 - 1

/-- The instant `time.Unix(sec, nsec)`.  An instant of `time.Time` is held as
its count of nanoseconds since the Unix epoch; the wall-clock reading is the
one `Sub` uses when an operand comes from `time.Unix`. -/
def timeUnix (sec nsec : Int) : Int := sec * 10 ^ 9 + nsec

/-- The duration `t.Sub(u)`: the difference t-u, or the least or greatest
duration when the difference does not fit a `Duration`. -/
def timeSub (t u : Int) : Int :=
  if t - u < minDuration then minDuration
  else if maxDuration < t - u then maxDuration
  else t - u

/-! ## The sandbox provider (package garden) -/

/-- `garden.BindMount`. -/
structure BindMount where
  SrcPath : String
  DstPath : String
  Mode : Nat
  Origin : Nat
deriving DecidableEq, Repr

/-- `garden.BindMountModeRO`. -/
def BindMountModeRO : Nat := 0

/-- `garden.BindMountOriginHost`. -/
def BindMountOriginHost : Nat := 0

/-- `garden.NetIn`; both ports are `uint32`. -/
structure NetIn where
  HostPort : Nat
  ContainerPort : Nat
deriving DecidableEq, Repr

/-- `garden.PortMapping`, an entry of `ContainerInfo.MappedPorts`; both ports
are `uint32`. -/
structure GardenPortMapping where
  HostPort : Nat
  ContainerPort : Nat
deriving DecidableEq, Repr

/-- `garden.ContainerInfo`, as far as the node reads it. -/
structure ContainerInfo where
  ExternalIP : String
  ContainerIP : String
  MappedPorts : List GardenPortMapping
deriving DecidableEq, Repr

/-- `garden.ImageRef`. -/
structure ImageRef where
  URI : String
  Username : String
  Password : String
deriving DecidableEq, Repr

/-- `garden.DiskLimits`. -/
structure DiskLimits where
  ByteHard : Nat
  InodeHard : Nat
  Scope : Nat
deriving DecidableEq, Repr

/-- `garden.Limits`, with the one field of each of `MemoryLimits`, `PidLimits`
and `CPULimits` written in place. -/
structure Limits where
  MemoryLimitInBytes : Nat
  Disk : DiskLimits
  PidMax : Nat
  CPULimitInShares : Nat
deriving DecidableEq, Repr

/-- `garden.ContainerSpec`. -/
structure ContainerSpec where
  Handle : String
  Privileged : Bool
  Image : ImageRef
  Env : List String
  BindMounts : List BindMount
  Limits : Limits
  Properties : List (String × String)
  NetIn : List NetIn
  NetOut : List String
deriving DecidableEq, Repr

/-- A `garden.Container`: the handle of a created sandbox. -/
structure GardenContainer where
  Handle : String
deriving DecidableEq, Repr

/-! ## Machine arithmetic -/

/-- The value a Go `int` (64 bits, two's complement) holds after an operation
whose exact result is `x`. -/
def wrapInt (x : Int) : Int := (x + 2 ^ 63) % 2 ^ 64 - 2 ^ 63

/-- The conversion `uint64(x)` of a Go `int`. -/
def uint64OfInt (x : Int) : Nat := (x % 2 ^ 64).toNat

/-- The conversion `uint16(x)` of a `uint32`. -/
def uint16OfUint32 (x : Nat) : Nat := x % 2 ^ 16

/-- The conversion `uint32(x)` of a `uint16`. -/
def uint32OfUint16 (x : Nat) : Nat := x

/-- The integer nearest to n/d, the even one of the two when n/d lies halfway. -/
def roundHalfEven (n d : Nat) : Nat :=
  let q := n / d
  let r := n % d
  if 2 * r < d then q
  else if d < 2 * r then q + 1
  else if q % 2 = 0 then q
  else q + 1

/-- The halvings of n that reach 0 or 1, at most `fuel` of them. -/
def floorLog2Aux : Nat → Nat → Nat
  | 0, _ => 0
  | fuel + 1, n => if n < 2 then 0 else floorLog2Aux fuel (n / 2) + 1

/-- The exponent of the greatest power of two that is at most n, for n
positive. -/
def floorLog2 (n : Nat) : Nat := floorLog2Aux n n

/-- A finite non-negative `float64`, held as the fraction num/den it stands
for. -/
structure Float64 where
  num : Nat
  den : Nat
deriving DecidableEq, Repr

/-- The `float64` nearest to n/d (IEEE 754 binary64, round to nearest, ties
to even; d is positive).  The fraction is scaled by a power of two into the
range of a 53-bit significand, [2^52, 2^53), rounded there and scaled back.
The exponent range of binary64 is not bounded here: the values rounded in this
file lie between 2^-7 and 2^71. -/
def float64Round (n d : Nat) : Float64 :=
  if n = 0 then ⟨0, 1⟩
  else
    let k := floorLog2 n
    let j := floorLog2 d
    let a := 52 + j + (if d * 2 ^ k ≤ n * 2 ^ j then 0 else 1)
    let up := a - k
    let down := k - a
    ⟨roundHalfEven (n * 2 ^ up) (d * 2 ^ down) * 2 ^ down, 2 ^ up⟩

/-- The conversion `float64(x)` of an unsigned integer. -/
def float64OfUint (x : Nat) : Float64 := float64Round x 1

/-- The `float64` product x * y. -/
def float64Mul (x y : Float64) : Float64 := float64Round (x.num * y.num) (x.den * y.den)

/-- The `float64` quotient x / y, for y not zero. -/
def float64Div (x y : Float64) : Float64 := float64Round (x.num * y.den) (x.den * y.num)

/-- The conversion `uint64(x)` of a `float64`: the fraction is discarded.  For
a value that does not fit a `uint64` Go leaves the result to the
implementation; `outOfRange` is that result. -/
def uint64OfFloat64 (outOfRange : Nat) (x : Float64) : Nat :=
  if x.num / x.den < 2 ^ 64 then x.num / x.den else outOfRange

/-! ## Go maps -/

/-- The assignment `m[k] = v` on a map held as a list of entries with distinct
keys. -/
def mapSet {α β : Type} [DecidableEq α] : List (α × β) → α → β → List (α × β)
  | [], k, v => [(k, v)]
  | (k1, v1) :: rest, k, v =>
      if k1 = k then (k, v) :: rest else (k1, v1) :: mapSet rest k v

/-- The lookup `v, ok := m[k]`. -/
def mapLookup {α β : Type} [DecidableEq α] : List (α × β) → α → Option β
  | [], _ => none
  | (k1, v1) :: rest, k => if k1 = k then some v1 else mapLookup rest k

/-- The lookup `m[k]` of a map of ports: the zero value for a key that is not
in the map. -/
def mapGet (m : List (Nat × Nat)) (k : Nat) : Nat := (mapLookup m k).getD 0

/-! ## The store node -/

def DownloadCachedDependenciesFailed : String := "failed to download cached artifacts"
def ContainerInitializationFailedMessage : String := "failed to initialize container"
def ContainerExpirationMessage : String := "expired container"
def ContainerMissingMessage : String := "missing garden container"
def VolmanMountFailed : String := "failed to mount volume"
def BindMountCleanupFailed : String := "failed to cleanup bindmount artifacts"
def CredDirFailed : String := "failed to create credentials directory"

/-- `ContainerConfig`, as far as the node reads it.  `INodeLimit` and
`MaxCPUShares` are `uint64`, `ReservedExpirationTime` a `time.Duration`. -/
structure ContainerConfig where
  OwnerName : String
  INodeLimit : Nat
  MaxCPUShares : Nat
  ReservedExpirationTime : Int
deriving DecidableEq, Repr

/-- The lifecycle events the node emits, with the info they carry. -/
inductive Event where
  | ContainerCompleteEvent (info : Container)
  | ContainerRunningEvent (info : Container)
deriving DecidableEq, Repr

/-- The stream of the log streamer a line is written to. -/
inductive Stream where
  | Stdout
  | Stderr
deriving DecidableEq, Repr

/-- One call to a collaborator of the node. -/
inductive Call where
  | DownloadCachedDependencies (deps : List String)
  | ReleaseCachedDependencies (cacheKeys : List String)
  | Mount (driver volumeId config : String)
  | Unmount (driver volumeId : String)
  | ProxyBindMounts (info : Container)
  | ProxyPorts (info : Container)
  | ProxyRunner (info : Container)
  | CreateCredDir (info : Container)
  | CredRunner (info : Container)
  | StepsRunner (info : Container)
  | GardenCreate (spec : ContainerSpec)
  | GardenDestroy (handle : String)
  | GardenContainerInfo (handle : String)
  | Fprintf (stream : Stream) (format : String)
  | Signal
  | Wait
  | Emit (event : Event)
deriving DecidableEq, Repr

/-- The supervisor process of a node: the members of its ordered group, in
start order. -/
structure Process where
  members : List String
deriving DecidableEq, Repr

/-- The fields of `storeNode` that hold state or configuration.  The
collaborators are the `World`; the two locks have no state of their own. -/
structure storeNode where
  hostTrustedCertificatesPath : String
  info : Container
  bindMountCacheKeys : List String
  gardenContainer : Option GardenContainer
  process : Option Process
  config : ContainerConfig
  useDeclarativeHealthCheck : Bool
  declarativeHealthcheckPath : String
  bindMounts : List BindMount
deriving DecidableEq, Repr

/-- `storeNode.Info`: a copy of the info. -/
def storeNode.Info (n : storeNode) : Container := n.info

/-- `storeNode.complete`: the transition to Completed and the completion
event, which carries the info after the transition. -/
def storeNode.complete (n : storeNode) (failed : Bool) (failureReason : String) :
    storeNode × List Call :=
  let info := n.info.TransitionToComplete failed failureReason
  ({ n with info := info }, [Call.Emit (.ContainerCompleteEvent info)])

/-- `storeNode.Initialize`. -/
def storeNode.Initialize (n : storeNode) (req : RunRequest) :
    storeNode × List Call × Option GoError :=
  match n.info.TransistionToInitialize req with
  | (info, some err) => ({ n with info := info }, [], some err)
  | (info, none) => ({ n with info := info }, [], none)

/-- `storeNode.Expire`. -/
def storeNode.Expire (n : storeNode) (now : Int) : storeNode × List Call × Bool :=
  if n.info.State ≠ .Reserved then (n, [], false)
  else
    let lifespan := timeSub now (timeUnix 0 n.info.AllocatedAt)
    if lifespan ≥ n.config.ReservedExpirationTime then
      let info := n.info.TransitionToComplete true ContainerExpirationMessage
      ({ n with info := info }, [Call.Emit (.ContainerCompleteEvent info)], true)
    else (n, [], false)

/-- `storeNode.Reap`. -/
def storeNode.Reap (n : storeNode) : storeNode × List Call × Bool :=
  if n.info.IsCreated then
    let info := n.info.TransitionToComplete true ContainerMissingMessage
    ({ n with info := info }, [Call.Emit (.ContainerCompleteEvent info)], true)
  else (n, [], false)

/-- `storeNode.stop`.  The line written to the log streamer is recorded by the
format string handed to `Fprintf`. -/
def storeNode.stop (n : storeNode) : storeNode × List Call × Option GoError :=
  let stopped := n.info.RunResult.Stopped
  let n1 : storeNode :=
    { n with info := { n.info with RunResult := { n.info.RunResult with Stopped := true } } }
  match n1.process with
  | some _ =>
      let said :=
        if !stopped then
          [Call.Fprintf .Stdout ("Stopping instance " ++ n1.Info.Guid ++ "\n")]
        else []
      (n1, said ++ [Call.Signal], none)
  | none =>
      let (n2, calls) := n1.complete true "stopped-before-running"
      (n2, calls, none)

/-- `storeNode.Stop`. -/
def storeNode.Stop (n : storeNode) : storeNode × List Call × Option GoError :=
  n.stop

/-! ## The collaborators -/

/-- The sentinel `server.ErrConcurrentDestroy` of the sandbox provider. -/
def ErrConcurrentDestroy : GoError := .errorString "container already being destroyed"

/-- What the surroundings of one method call answer: the collaborators of the
node, and the helpers and constants of package containerstore that are
declared outside storenode.go.  `Mount` and `Unmount` are given the position
of the call in the loop that makes it, `GardenContainerInfo` the count of
earlier `Info()` calls. -/
structure World where
  convertEnvVars : List EnvironmentVariable → List String
  convertDiskScope : String → Nat
  convertEgressToNetOut : List String → Except GoError (List String)
  ContainerOwnerProperty : String
  uint64OfLargeFloat : Nat
  DownloadCachedDependencies : Except GoError (List BindMount × List String)
  ReleaseCachedDependencies : Option GoError
  Mount : Nat → VolumeMount → Except GoError String
  Unmount : Nat → VolumeMount → Option GoError
  ProxyBindMounts : Except GoError (List BindMount)
  ProxyPorts : List ProxyPortMapping × List Nat
  ProxyRunner : Except GoError Nat
  CreateCredDir : Except GoError (List BindMount × List EnvironmentVariable)
  StepsRunner : Option GoError
  GardenCreate : Except GoError GardenContainer
  GardenContainerInfo : Nat → Except GoError ContainerInfo
  GardenDestroy : Option GoError

/-! ## Creating the sandbox -/

/-- The loop of `storeNode.mountVolumes` from the volume at position `i` on:
the `Mount` calls made, and the bind mounts of the volumes or the first
error. -/
def mountVolumesFrom (w : World) : Nat → List VolumeMount →
    List Call × Except GoError (List BindMount)
  | _, [] => ([], .ok [])
  | i, volume :: rest =>
      let call := Call.Mount volume.Driver volume.VolumeId volume.Config
      match w.Mount i volume with
      | .error err => ([call], .error err)
      | .ok hostPath =>
          let gardenMount : BindMount :=
            { SrcPath := hostPath
              DstPath := volume.ContainerPath
              Origin := BindMountOriginHost
              Mode := volume.Mode }
          match mountVolumesFrom w (i + 1) rest with
          | (calls, .error err) => (call :: calls, .error err)
          | (calls, .ok gardenMounts) => (call :: calls, .ok (gardenMount :: gardenMounts))

/-- `storeNode.mountVolumes`. -/
def storeNode.mountVolumes (w : World) (info : Container) :
    List Call × Except GoError (List BindMount) :=
  mountVolumesFrom w 0 info.RunInfo.VolumeMounts

/-- `storeNode.gardenProperties`. -/
def storeNode.gardenProperties (w : World) (n : storeNode) (container : Container) :
    List (String × String) :=
  let properties : List (String × String) :=
    match container.RunInfo.Network with
    | some networkProperties =>
        networkProperties.foldl (fun m kv => mapSet m ("network." ++ kv.1) kv.2) []
    | none => []
  mapSet properties w.ContainerOwnerProperty n.config.OwnerName

/-- `portMappingFromContainerInfo`.  Go ranges over a map in an order it does
not fix; here the entries are visited in the order their keys were first
assigned. -/
def portMappingFromContainerInfo (info : ContainerInfo) (mappings : List ProxyPortMapping) :
    List PortMapping :=
  let proxyPorts : List (Nat × Unit) :=
    mappings.foldl (fun m mapping => mapSet m mapping.ProxyPort ()) []
  let appPortToProxyPortMappings : List (Nat × Nat) :=
    mappings.foldl (fun m mapping => mapSet m mapping.AppPort mapping.ProxyPort) []
  let portMappings : List (Nat × Nat) :=
    info.MappedPorts.foldl
      (fun m portMapping =>
        mapSet m (uint16OfUint32 portMapping.ContainerPort) (uint16OfUint32 portMapping.HostPort))
      []
  portMappings.filterMap fun (appPort, hostPort) =>
    if (mapLookup proxyPorts appPort).isSome then none
    else
      let proxyContainerPort := mapGet appPortToProxyPortMappings appPort
      let proxyHostPort := mapGet portMappings proxyContainerPort
      some
        { HostPort := hostPort
          ContainerPort := appPort
          ContainerTLSProxyPort := proxyContainerPort
          HostTLSProxyPort := proxyHostPort }

/-- The `Limits` of the container spec `createGardenContainer` builds. -/
def specLimits (w : World) (config : ContainerConfig) (info : Container) : Limits :=
  { MemoryLimitInBytes := uint64OfInt (wrapInt (wrapInt (info.MemoryMB * 1024) * 1024))
    Disk :=
      { ByteHard := uint64OfInt (wrapInt (wrapInt (info.DiskMB * 1024) * 1024))
        InodeHard := config.INodeLimit
        Scope := w.convertDiskScope info.DiskScope }
    PidMax := uint64OfInt info.MaxPids
    CPULimitInShares :=
      uint64OfFloat64 w.uint64OfLargeFloat
        (float64Div (float64Mul (float64OfUint config.MaxCPUShares) (float64OfUint info.CPUWeight))
          ⟨100, 1⟩) }

/-- `storeNode.destroyContainer`. -/
def storeNode.destroyContainer (w : World) (n : storeNode) : List Call × Option GoError :=
  let calls := [Call.GardenDestroy n.info.Guid]
  match w.GardenDestroy with
  | none => (calls, none)
  | some (.ContainerNotFoundError _) => (calls, none)
  | some err =>
      if err.Error = ErrConcurrentDestroy.Error then (calls, none) else (calls, some err)

/-- `createContainer`. -/
def createContainer (w : World) (spec : ContainerSpec) : List Call × Except GoError GardenContainer :=
  ([Call.GardenCreate spec], w.GardenCreate)

/-- `fetchIPs`, the `Info()` call it makes being the one after `earlier`
calls. -/
def fetchIPs (w : World) (earlier : Nat) (gardenContainer : GardenContainer) :
    List Call × Except GoError (String × String) :=
  let calls := [Call.GardenContainerInfo gardenContainer.Handle]
  match w.GardenContainerInfo earlier with
  | .error err => (calls, .error err)
  | .ok gardenInfo => (calls, .ok (gardenInfo.ExternalIP, gardenInfo.ContainerIP))

/-- `storeNode.createGardenContainer`: the calls made, and the sandbox with
the info as the method leaves it behind its pointer, or the error. -/
def storeNode.createGardenContainer (w : World) (n : storeNode) (info : Container) :
    List Call × Except GoError (GardenContainer × Container) :=
  match w.convertEgressToNetOut info.RunInfo.EgressRules with
  | .error err => ([], .error err)
  | .ok netOutRules =>
    let c1 := [Call.ProxyPorts info]
    let (proxyPortMapping, extraPorts) := w.ProxyPorts
    let ports := info.RunInfo.Ports ++ extraPorts.map fun port =>
      ({ HostPort := 0, ContainerPort := port, ContainerTLSProxyPort := 0, HostTLSProxyPort := 0 } :
        PortMapping)
    let info1 : Container := { info with RunInfo := { info.RunInfo with Ports := ports } }
    let netInRules : List NetIn := info1.RunInfo.Ports.map fun portMapping =>
      { HostPort := uint32OfUint16 portMapping.HostPort
        ContainerPort := uint32OfUint16 portMapping.ContainerPort }
    let containerSpec : ContainerSpec :=
      { Handle := info1.Guid
        Privileged := info1.RunInfo.Privileged
        Image :=
          { URI := info1.RunInfo.RootFSPath
            Username := info1.RunInfo.ImageUsername
            Password := info1.RunInfo.ImagePassword }
        Env := w.convertEnvVars info1.RunInfo.Env
        BindMounts := n.bindMounts
        Limits := specLimits w n.config info1
        Properties := n.gardenProperties w info1
        NetIn := netInRules
        NetOut := netOutRules }
    match createContainer w containerSpec with
    | (c2, .error err) => (c1 ++ c2, .error err)
    | (c2, .ok gardenContainer) =>
      let c3 := [Call.GardenContainerInfo gardenContainer.Handle]
      match w.GardenContainerInfo 0 with
      | .error err => (c1 ++ c2 ++ c3, .error err)
      | .ok containerInfo =>
        let info2 : Container :=
          { info1 with
            RunInfo :=
              { info1.RunInfo with
                Ports := portMappingFromContainerInfo containerInfo proxyPortMapping } }
        match fetchIPs w 1 gardenContainer with
        | (c4, .error err) =>
            (c1 ++ c2 ++ c3 ++ c4 ++ (n.destroyContainer w).1, .error err)
        | (c4, .ok (externalIP, containerIP)) =>
          let info3 : Container := { info2 with ExternalIP := externalIP, InternalIP := containerIP }
          match info3.TransistionToCreate with
          | (_, some err) => (c1 ++ c2 ++ c3 ++ c4, .error err)
          | (info4, none) =>
            let info5 : Container :=
              { info4 with
                MemoryLimit := containerSpec.Limits.MemoryLimitInBytes
                DiskLimit := containerSpec.Limits.Disk.ByteHard }
            (c1 ++ c2 ++ c3 ++ c4, .ok (gardenContainer, info5))

/-- `storeNode.Create`.  An `append` under an `if` is the append of a list
that is empty when the condition fails. -/
def storeNode.Create (w : World) (n : storeNode) : storeNode × List Call × Option GoError :=
  let info := n.info
  if !info.ValidateTransitionTo .Created then (n, [], some .ErrInvalidTransition)
  else
    let c1 := [Call.DownloadCachedDependencies info.RunInfo.CachedDependencies]
    match w.DownloadCachedDependencies with
    | .error err =>
        let (n1, c2) := n.complete true DownloadCachedDependenciesFailed
        (n1, c1 ++ c2, some err)
    | .ok (gardenBindMounts, cacheKeys) =>
      let n1 : storeNode := { n with bindMounts := gardenBindMounts }
      let certs : Bool :=
        n1.hostTrustedCertificatesPath ≠ "" ∧ info.RunInfo.TrustedSystemCertificatesPath ≠ ""
      let certMounts : List BindMount :=
        if certs then
          [{ SrcPath := n1.hostTrustedCertificatesPath
             DstPath := info.RunInfo.TrustedSystemCertificatesPath
             Mode := BindMountModeRO
             Origin := BindMountOriginHost }]
        else []
      let certEnv : List EnvironmentVariable :=
        if certs then
          [{ Name := "CF_SYSTEM_CERT_PATH", Value := info.RunInfo.TrustedSystemCertificatesPath }]
        else []
      let n2 : storeNode := { n1 with bindMounts := n1.bindMounts ++ certMounts }
      let info1 : Container :=
        { info with RunInfo := { info.RunInfo with Env := info.RunInfo.Env ++ certEnv } }
      match storeNode.mountVolumes w info1 with
      | (c2, .error err) =>
          let (n3, c3) := n2.complete true VolmanMountFailed
          (n3, c1 ++ c2 ++ c3, some err)
      | (c2, .ok volumeMounts) =>
        let n3 : storeNode := { n2 with bindMounts := n2.bindMounts ++ volumeMounts }
        let c3 := [Call.ProxyBindMounts n3.info]
        match w.ProxyBindMounts with
        | .error err => (n3, c1 ++ c2 ++ c3, some err)
        | .ok proxyMounts =>
          let n4 : storeNode := { n3 with bindMounts := n3.bindMounts ++ proxyMounts }
          let c4 := [Call.CreateCredDir n4.info]
          match w.CreateCredDir with
          | .error err =>
              let (n5, c5) := n4.complete true CredDirFailed
              (n5, c1 ++ c2 ++ c3 ++ c4 ++ c5, some err)
          | .ok (credMounts, envs) =>
            let n5 : storeNode := { n4 with bindMounts := n4.bindMounts ++ credMounts }
            let info2 : Container :=
              { info1 with RunInfo := { info1.RunInfo with Env := info1.RunInfo.Env ++ envs } }
            let healthcheckMounts : List BindMount :=
              if n5.useDeclarativeHealthCheck then
                [{ Origin := BindMountOriginHost
                   SrcPath := n5.declarativeHealthcheckPath
                   DstPath := "/etc/cf-assets/healthcheck"
                   Mode := 0 }]
              else []
            let n6 : storeNode := { n5 with bindMounts := n5.bindMounts ++ healthcheckMounts }
            let c5 := [Call.Fprintf .Stdout "Creating container\n"]
            match n6.createGardenContainer w info2 with
            | (c6, .error err) =>
                let c7 := [Call.Fprintf .Stderr "Failed to create container\n"]
                let (n7, c8) := n6.complete true ContainerInitializationFailedMessage
                (n7, c1 ++ c2 ++ c3 ++ c4 ++ c5 ++ c6 ++ c7 ++ c8, some err)
            | (c6, .ok (gardenContainer, info3)) =>
                let c7 := [Call.Fprintf .Stdout "Successfully created container\n"]
                ({ n6 with
                   gardenContainer := some gardenContainer
                   info := info3
                   bindMountCacheKeys := cacheKeys },
                 c1 ++ c2 ++ c3 ++ c4 ++ c5 ++ c6 ++ c7, none)

/-! ## Running, stopping and destroying -/

/-- The end of `storeNode.completeWithError`, once the error string is
known. -/
def storeNode.completeWithErrorString (n : storeNode) (errorStr : String) :
    storeNode × List Call :=
  if errorStr ≠ "" then n.complete true errorStr else n.complete false ""

mutual
/-- `storeNode.completeWithError` on an error that is not nil. -/
def storeNode.completeWithGoError (n : storeNode) : GoError → storeNode × List Call
  | .ErrorTrace exitTrace =>
      match storeNode.completeWithExitTrace n exitTrace with
      | some done => done
      | none => n.completeWithErrorString (GoError.Error (.ErrorTrace exitTrace))
  | .ErrInvalidTransition => n.completeWithErrorString (GoError.Error .ErrInvalidTransition)
  | .ContainerNotFoundError handle =>
      n.completeWithErrorString (GoError.Error (.ContainerNotFoundError handle))
  | .errorString msg => n.completeWithErrorString (GoError.Error (.errorString msg))
/-- The loop of `storeNode.completeWithError` over the exit events of a trace:
`none` when no event has an error and the loop falls through.  For a member
other than "runner" the recursive call is on a fresh `errors.New` value, which
is no trace, and is written unfolded. -/
def storeNode.completeWithExitTrace (n : storeNode) : ExitTrace → Option (storeNode × List Call)
  | .nil => none
  | .exited _ rest => storeNode.completeWithExitTrace n rest
  | .failed member err _ =>
      if member ≠ "runner" then
        some (n.completeWithErrorString (member ++ " exited: " ++ GoError.Error err))
      else some (storeNode.completeWithGoError n err)
end

/-- `storeNode.completeWithError`. -/
def storeNode.completeWithError (n : storeNode) : Option GoError → storeNode × List Call
  | some err => n.completeWithGoError err
  | none => n.completeWithErrorString ""

/-- `storeNode.Run`.  The goroutine it starts is `storeNode.run`. -/
def storeNode.Run (w : World) (n : storeNode) : storeNode × List Call × Option GoError :=
  if n.info.State ≠ .Created then (n, [], some .ErrInvalidTransition)
  else
    let c1 := [Call.CredRunner n.info, Call.ProxyRunner n.info]
    match w.ProxyRunner with
    | .error err =>
        let (n1, c2) := n.completeWithError (some err)
        (n1, c1 ++ c2, some err)
    | .ok _ =>
        let c2 := [Call.StepsRunner n.info]
        match w.StepsRunner with
        | some err => (n, c1 ++ c2, some err)
        | none =>
            let members := ["cred-manager-runner", "proxy-config-runner", "runner"]
            ({ n with process := some { members := members } }, c1 ++ c2, none)

/-- The loop of `storeNode.Destroy` over the volumes from position `i` on: the
`Unmount` calls made, and whether one of them failed. -/
def unmountVolumesFrom (w : World) : Nat → List VolumeMount → List Call × Bool
  | _, [] => ([], false)
  | i, volume :: rest =>
      let (calls, failed) := unmountVolumesFrom w (i + 1) rest
      (Call.Unmount volume.Driver volume.VolumeId :: calls, (w.Unmount i volume).isSome || failed)

/-- `storeNode.Destroy`.  The wait for the supervisor to exit is the log entry
`Call.Wait`; what the goroutine `run` does on that exit is `storeNode.run`. -/
def storeNode.Destroy (w : World) (n : storeNode) : storeNode × List Call × Option GoError :=
  match n.stop with
  | (n1, c1, some err) => (n1, c1, some err)
  | (n1, c1, none) =>
    let c2 := if n1.process.isSome then [Call.Wait] else []
    let c3 := [Call.Fprintf .Stdout "Destroying container\n"]
    match n1.destroyContainer w with
    | (c4, some err) =>
        (n1, c1 ++ c2 ++ c3 ++ c4 ++ [Call.Fprintf .Stderr "Failed to destroy container\n"], some err)
    | (c4, none) =>
      let c5 := [Call.Fprintf .Stdout "Successfully destroyed container\n"]
      let info := n1.info
      let cacheKeys := n1.bindMountCacheKeys
      let c6 := [Call.ReleaseCachedDependencies cacheKeys]
      let releaseFailed := w.ReleaseCachedDependencies.isSome
      let (c7, unmountFailed) := unmountVolumesFrom w 0 info.RunInfo.VolumeMounts
      let bindMountCleanupErr : Option GoError :=
        if releaseFailed || unmountFailed then some (.errorString BindMountCleanupFailed) else none
      (n1, c1 ++ c2 ++ c3 ++ c4 ++ c5 ++ c6 ++ c7, bindMountCleanupErr)

/-! ## Sequences of operations -/

/-- One lifecycle operation on a node, with what its surroundings answer. -/
inductive Op where
  | Initialize (req : RunRequest)
  | Create (w : World)
  | Run (w : World)
  | Stop
  | Destroy (w : World)
  | Expire (now : Int)
  | Reap

/-- The node after an operation, and the calls the operation made. -/
def storeNode.apply (n : storeNode) : Op → storeNode × List Call
  | .Initialize req => ((n.Initialize req).1, (n.Initialize req).2.1)
  | .Create w => ((n.Create w).1, (n.Create w).2.1)
  | .Run w => ((n.Run w).1, (n.Run w).2.1)
  | .Stop => (n.Stop.1, n.Stop.2.1)
  | .Destroy w => ((n.Destroy w).1, (n.Destroy w).2.1)
  | .Expire now => ((n.Expire now).1, (n.Expire now).2.1)
  | .Reap => (n.Reap.1, n.Reap.2.1)

/-- The node after a sequence of operations, and the calls made over the
whole sequence, in order. -/
def storeNode.applyAll (n : storeNode) : List Op → storeNode × List Call
  | [] => (n, [])
  | op :: ops =>
      let (n1, c1) := n.apply op
      let (n2, c2) := n1.applyAll ops
      (n2, c1 ++ c2)

/-- Whether a call is the emission of a Completion event. -/
def Call.isCompletion : Call → Bool
  | .Emit (.ContainerCompleteEvent _) => true
  | _ => false

/-- The number of Completion events in a log. -/
def completions (calls : List Call) : Nat := calls.countP Call.isCompletion

/-- Whether an operation is Stop or Destroy, the two that take the internal
stop path. -/
def Op.isStopOrDestroy : Op → Bool
  | .Stop => true
  | .Destroy _ => true
  | _ => false

/-- Whether an operation is Run, the one that attaches a supervisor process
and starts the goroutine `run`. -/
def Op.isRun : Op → Bool
  | .Run _ => true
  | _ => false

/-! ## Sample values -/

/-- Run parameters of a sample container: one volume, no ports. -/
def sampleRunInfo : RunInfo :=
  { RootFSPath := "docker:///busybox"
    ImageUsername := ""
    ImagePassword := ""
    Privileged := false
    Env := []
    Ports := []
    LogConfig := ""
    CachedDependencies := ["lifecycle"]
    VolumeMounts :=
      [{ Driver := "nfs", VolumeId := "vol-1", Config := "", ContainerPath := "/data", Mode := 0 }]
    EgressRules := []
    TrustedSystemCertificatesPath := ""
    Network := none }

/-- A sample container in the given state, allocated at the Unix epoch, with
the limits of the limit-container test: 1024 MB of memory, 512 MB of disk. -/
def sampleContainer (state : State) : Container :=
  { Guid := "g1"
    State := state
    AllocatedAt := 0
    MemoryMB := 1024
    DiskMB := 512
    CPUWeight := 50
    MaxPids := 0
    DiskScope := "total"
    RunInfo := sampleRunInfo
    ExternalIP := ""
    InternalIP := ""
    MemoryLimit := 0
    DiskLimit := 0
    RunResult := { Failed := false, FailureReason := "", Stopped := false } }

/-- A sample configuration: reservations expire after one second, the inode
limit is that of the limit-container test. -/
def sampleConfig : ContainerConfig :=
  { OwnerName := "executor"
    INodeLimit := 200000
    MaxCPUShares := 1024
    ReservedExpirationTime := 10 ^ 9 }

/-- A sample node in the given state, without sandbox handle or supervisor. -/
def sampleNode (state : State) : storeNode :=
  { hostTrustedCertificatesPath := ""
    info := sampleContainer state
    bindMountCacheKeys := []
    gardenContainer := none
    process := none
    config := sampleConfig
    useDeclarativeHealthCheck := false
    declarativeHealthcheckPath := ""
    bindMounts := [] }

/-- A sample node in state Created whose sandbox handle is attached. -/
def sampleCreatedNode : storeNode :=
  { sampleNode .Created with gardenContainer := some { Handle := "g1" } }

/-- Surroundings in which every collaborator succeeds. -/
def sampleWorld : World :=
  { convertEnvVars := fun env => env.map fun e => e.Name ++ "=" ++ e.Value
    convertDiskScope := fun _ => 0
    convertEgressToNetOut := fun rules => .ok rules
    ContainerOwnerProperty := "executor:owner"
    uint64OfLargeFloat := 0
    DownloadCachedDependencies := .ok ([], ["key-1"])
    ReleaseCachedDependencies := none
    Mount := fun _ _ => .ok "/var/vcap/data/vol-1"
    Unmount := fun _ _ => none
    ProxyBindMounts := .ok []
    ProxyPorts := ([], [])
    ProxyRunner := .ok 61001
    CreateCredDir := .ok ([], [])
    StepsRunner := none
    GardenCreate := .ok { Handle := "g1" }
    GardenContainerInfo := fun _ =>
      .ok { ExternalIP := "10.0.0.1", ContainerIP := "10.255.0.2", MappedPorts := [] }
    GardenDestroy := none }

/-- The container specs handed to the sandbox provider's Create in a log. -/
def gardenCreateSpecs (calls : List Call) : List ContainerSpec :=
  calls.filterMap fun call =>
    match call with
    | .GardenCreate spec => some spec
    | _ => none

/-- The driver and volume id of a `Mount` call. -/
def Call.mountOf : Call → Option (String × String)
  | .Mount driver volumeId _ => some (driver, volumeId)
  | _ => none

/-- The driver and volume id of an `Unmount` call. -/
def Call.unmountOf : Call → Option (String × String)
  | .Unmount driver volumeId => some (driver, volumeId)
  | _ => none

/-- The cache keys of a `ReleaseCachedDependencies` call. -/
def Call.releaseOf : Call → Option (List String)
  | .ReleaseCachedDependencies cacheKeys => some cacheKeys
  | _ => none

/-- The dependencies of a `DownloadCachedDependencies` call. -/
def Call.downloadOf : Call → Option (List String)
  | .DownloadCachedDependencies deps => some deps
  | _ => none

/-- The volumes mounted in a log, in order. -/
def mountsOf (calls : List Call) : List (String × String) := calls.filterMap Call.mountOf

/-- The volumes unmounted in a log, in order. -/
def unmountsOf (calls : List Call) : List (String × String) := calls.filterMap Call.unmountOf

/-- The `ReleaseCachedDependencies` calls of a log, by their cache keys. -/
def releasesOf (calls : List Call) : List (List String) := calls.filterMap Call.releaseOf

/-- The `DownloadCachedDependencies` calls of a log, by their dependencies. -/
def downloadsOf (calls : List Call) : List (List String) := calls.filterMap Call.downloadOf

/-- The driver and volume id of each volume of a container, in order. -/
def volumesOf (info : Container) : List (String × String) :=
  info.RunInfo.VolumeMounts.map fun volume => (volume.Driver, volume.VolumeId)

/-- Surroundings in which the proxy manager fails to give its bind mounts and
every other collaborator succeeds. -/
def sampleProxyFailureWorld : World :=
  { sampleWorld with ProxyBindMounts := .error (.errorString "no proxy directory") }

/-- Surroundings in which the sandbox provider fails to destroy the container
and every other collaborator succeeds. -/
def sampleDestroyFailureWorld : World :=
  { sampleWorld with GardenDestroy := some (.errorString "garden is down") }

/-- The sample node in state Initializing after a Create in which every
collaborator succeeds. -/
def sampleCreatedByCreate : storeNode := ((sampleNode .Initializing).Create sampleWorld).1

/-- A configuration whose MaxCPUShares, 2^53 + 1, is no `float64`. -/
def sampleLargeSharesConfig : ContainerConfig :=
  { sampleConfig with MaxCPUShares := 2 ^ 53 + 1 }

/-- A sample node in state Initializing with that configuration. -/
def sampleLargeSharesNode : storeNode :=
  { sampleNode .Initializing with config := sampleLargeSharesConfig }

/-- A sample container of CPU weight 100 in state Initializing. -/
def sampleFullWeightContainer : Container :=
  { sampleContainer .Initializing with CPUWeight := 100 }

/-- A sample container in state Initializing that asks for 2^44 MB of memory
and of disk. -/
def sampleHugeContainer : Container :=
  { sampleContainer .Initializing with MemoryMB := 2 ^ 44, DiskMB := 2 ^ 44 }

/-- The proxy port the mappings give an app port, in the words of the spec:
that of the last mapping for the port, and 0 when no mapping is for it. -/
def proxyPortOf (mappings : List ProxyPortMapping) (appPort : Nat) : Nat :=
  (((mappings.filter fun mapping => mapping.AppPort = appPort).getLast?).map
    fun mapping => mapping.ProxyPort).getD 0

/-- The host port the sandbox maps a container port to, in the words of the
spec: that of the last mapped port with this container port, and 0 when the
sandbox maps none; the ports of the sandbox are read as `uint16`. -/
def hostPortOf (mappedPorts : List GardenPortMapping) (containerPort : Nat) : Nat :=
  (((mappedPorts.filter fun portMapping =>
      uint16OfUint32 portMapping.ContainerPort = containerPort).getLast?).map
    fun portMapping => uint16OfUint32 portMapping.HostPort).getD 0

/-- The host port the sandbox maps a container port to, in the words of the
spec, for ports that are port numbers: that of the mapped port with this
container port, and 0 when the sandbox maps none. -/
def mappedHostPortOf (mappedPorts : List GardenPortMapping) (containerPort : Nat) : Nat :=
  ((mappedPorts.find? fun portMapping => portMapping.ContainerPort = containerPort).map
    fun portMapping => portMapping.HostPort).getD 0

/-- The sandbox info of the port mapping scenario of the spec: container port
8080 on host port 32001, container port 61001 on host port 32002. -/
def sampleContainerInfo : ContainerInfo :=
  { ExternalIP := "10.0.0.1"
    ContainerIP := "10.255.0.2"
    MappedPorts :=
      [{ HostPort := 32001, ContainerPort := 8080 }, { HostPort := 32002, ContainerPort := 61001 }] }

/-- A sandbox info that maps container port 0, and two container ports that
differ as `uint32` and agree as `uint16`: 73616 = 8080 + 65536. -/
def sampleOddContainerInfo : ContainerInfo :=
  { ExternalIP := "10.0.0.1"
    ContainerIP := "10.255.0.2"
    MappedPorts :=
      [{ HostPort := 5000, ContainerPort := 0 }, { HostPort := 32001, ContainerPort := 8080 },
        { HostPort := 40000, ContainerPort := 73616 }] }

/-- A node whose reservation has expired: the sample node after Expire at one
second past its allocation. -/
def sampleExpiredNode : storeNode := ((sampleNode .Reserved).Expire (10 ^ 9)).1

/-- The Completion events a node may still emit without a Stop or Destroy:
one until it is Completed, none after. -/
def storeNode.pending (n : storeNode) : Nat :=
  if n.info.State = .Completed then 0 else 1

/-! ## The action runner (package actionrunner) -/

/-- `models.RunAction`, as far as the action runner reads it; `Timeout` is a
`time.Duration`. -/
structure RunAction where
  Script : String
  Timeout : Int
deriving DecidableEq, Repr

/-- The `Action` of a `models.ExecutorAction`, by the dynamic types the type
switch of `Run` tells apart. -/
inductive ExecutorAction where
  | RunAction (action : RunAction)
  | CopyAction
  | other
deriving DecidableEq, Repr

/-- An error `Run` returns: the type `RunActionTimeoutError`, or any other
error value. -/
inductive ActionError where
  | error (err : GoError)
  | RunActionTimeoutError (action : RunAction)

/-- The case of the `select` in `performRunAction` that receives: an exit
status from the payload stream, the error of the sandbox client's `Run`, or
the timer. -/
inductive SelectCase where
  | exitStatus (status : Nat)
  | err (err : GoError)
  | timeout

/-- The surroundings of the action runner: the backend plugin, and for the run
action at each position of the list the case of the `select` that receives,
`none` when no channel ever delivers. -/
structure Warden where
  BuildRunScript : RunAction → String
  received : Nat → RunAction → Option SelectCase

/-- `ActionRunner.performRunAction` for the action at position `i`: the call
to the sandbox client's `Run`, by container handle and script, and what the
method returns; `none` when the `select` blocks for ever.  The timer channel
is nil, and never receives, when the action has no timeout. -/
def performRunAction (w : Warden) (containerHandle : String) (i : Nat) (action : RunAction) :
    List (String × String) × Option (Option ActionError) :=
  let calls := [(containerHandle, w.BuildRunScript action)]
  match w.received i action with
  | some (.exitStatus exitStatus) =>
      if exitStatus ≠ 0 then
        (calls, some (some (.error
          (.errorString ("Process returned with exit value: " ++ toString exitStatus)))))
      else (calls, some none)
  | some (.err err) => (calls, some (some (.error err)))
  | some .timeout =>
      if action.Timeout ≠ 0 then (calls, some (some (.RunActionTimeoutError action)))
      else (calls, none)
  | none => (calls, none)

/-- The loop of `ActionRunner.Run` from position `i` on: the calls to the
sandbox client, in order, and what `Run` returns; `none` when it never
returns. -/
def runFrom (w : Warden) (containerHandle : String) :
    Nat → List ExecutorAction → List (String × String) × Option (Option ActionError)
  | _, [] => ([], some none)
  | i, .RunAction a :: rest =>
      match performRunAction w containerHandle i a with
      | (calls, some none) =>
          ((calls ++ (runFrom w containerHandle (i + 1) rest).1),
            (runFrom w containerHandle (i + 1) rest).2)
      | (calls, result) => (calls, result)
  | i, .CopyAction :: rest => runFrom w containerHandle (i + 1) rest
  | i, .other :: rest => runFrom w containerHandle (i + 1) rest

/-- `ActionRunner.Run`. -/
def ActionRunner.Run (w : Warden) (containerHandle : String) (actions : List ExecutorAction) :
    List (String × String) × Option (Option ActionError) :=
  runFrom w containerHandle 0 actions

/-- The calls to the sandbox client that performing the run actions of a
list makes, in list order. -/
def performs (w : Warden) (containerHandle : String) (actions : List ExecutorAction) :
    List (String × String) :=
  actions.filterMap fun action =>
    match action with
    | .RunAction a => some (containerHandle, w.BuildRunScript a)
    | _ => none

/-- The two actions of the action runner test. -/
def sampleActions : List ExecutorAction :=
  [.RunAction { Script := "foo", Timeout := 0 }, .RunAction { Script := "bar", Timeout := 0 }]

/-- Surroundings in which every run action exits with status 0. -/
def sampleWarden : Warden :=
  { BuildRunScript := fun action => action.Script
    received := fun _ _ => some (.exitStatus 0) }

/-- Surroundings in which the run action "foo" exits with status 3 and every
other one with status 0. -/
def sampleFailingWarden : Warden :=
  { BuildRunScript := fun action => action.Script
    received := fun _ action =>
      if action.Script = "foo" then some (.exitStatus 3) else some (.exitStatus 0) }

/-! ## Values for the later theorems -/

/-- Whether an error is a `garden.ContainerNotFoundError`. -/
def GoError.isContainerNotFound : GoError → Bool
  | .ContainerNotFoundError _ => true
  | _ => false

/-- Whether one of the cleanup calls of Destroy fails: the release of the
cached dependencies, or the unmount of one of the volumes. -/
def cleanupFails (w : World) (volumes : List VolumeMount) : Bool :=
  w.ReleaseCachedDependencies.isSome ||
    volumes.enum.any fun (i, volume) => (w.Unmount i volume).isSome

/-- The first exit event of a trace that has an error: the name of its member
and the error. -/
def ExitTrace.firstFailure : ExitTrace → Option (String × GoError)
  | .nil => none
  | .exited _ rest => ExitTrace.firstFailure rest
  | .failed member err _ => some (member, err)

/-- Whether an error is a `grouper.ErrorTrace` one of whose exit events has an
error. -/
def GoError.isFailingTrace : GoError → Bool
  | .ErrorTrace trace => (ExitTrace.firstFailure trace).isSome
  | _ => false

mutual
/-- The message of the error `completeWithError` finally unwraps an error
to. -/
def GoError.finalMessage : GoError → String
  | .ErrorTrace trace =>
      match ExitTrace.finalMessage trace with
      | some msg => msg
      | none => GoError.Error (.ErrorTrace trace)
  | .ErrInvalidTransition => GoError.Error .ErrInvalidTransition
  | .ContainerNotFoundError handle => GoError.Error (.ContainerNotFoundError handle)
  | .errorString msg => msg
/-- The message of the error `completeWithError` finally unwraps the first
failing exit event of a trace to, if the trace has one. -/
def ExitTrace.finalMessage : ExitTrace → Option String
  | .nil => none
  | .exited _ rest => ExitTrace.finalMessage rest
  | .failed member err _ =>
      if member ≠ "runner" then some (member ++ " exited: " ++ GoError.Error err)
      else some (GoError.finalMessage err)
end

/-- A second volume for the sample container. -/
def sampleSecondVolume : VolumeMount :=
  { Driver := "nfs", VolumeId := "vol-2", Config := "", ContainerPath := "/logs", Mode := 0 }

/-- A created sample node with two volumes and one cache key. -/
def sampleTwoVolumeNode : storeNode :=
  { sampleCreatedByCreate with
    info :=
      { sampleCreatedByCreate.info with
        RunInfo :=
          { sampleRunInfo with
            VolumeMounts := sampleRunInfo.VolumeMounts ++ [sampleSecondVolume] } } }

/-- Surroundings in which the release of the cached dependencies and the
unmount of the first volume fail. -/
def sampleCleanupFailureWorld : World :=
  { sampleWorld with
    ReleaseCachedDependencies := some (.errorString "cache is gone")
    Unmount := fun i _ => if i = 0 then some (.errorString "volume is busy") else none }

/-- The created sample node after a Run in which every collaborator succeeds:
its supervisor process is attached. -/
def sampleRunNode : storeNode := (sampleCreatedByCreate.Run sampleWorld).1

/-- An exit trace in which the credential manager exits cleanly, the proxy
fails and the steps runner fails after it. -/
def sampleTrace : ExitTrace :=
  .exited "cred-manager-runner"
    (.failed "proxy-config-runner" (.errorString "connection refused")
      (.failed "runner" (.errorString "exit status 1") .nil))

/-- An exit trace in which the steps runner fails with a trace of its own
members. -/
def sampleNestedTrace : ExitTrace :=
  .failed "runner" (.ErrorTrace (.failed "action" (.errorString "exit status 1") .nil)) .nil

/-- An exit trace in which the steps runner fails with an error whose message
is empty. -/
def sampleEmptyMessageTrace : ExitTrace :=
  .failed "runner" (.errorString "") .nil

/-- The message of the final error of `completeWithError`: empty for nil. -/
def finalMessageOf : Option GoError → String
  | none => ""
  | some err => err.finalMessage

/-! # Theorems -/

/-! ## Invalid transitions (C1) -/

/-- Create on a node that is not Initializing is refused and changes
nothing. -/
theorem Create_of_not_initializing (w : World) (n : storeNode)
    (h : n.info.State ≠ .Initializing) : n.Create w = (n, [], some .ErrInvalidTransition) := by
  have hv : n.info.ValidateTransitionTo .Created = false := by
    unfold Container.ValidateTransitionTo
    cases hs : n.info.State <;> simp_all
  simp [storeNode.Create, hv]

/-- Run on a node that is not Created is refused and changes nothing. -/
theorem Run_of_not_created (w : World) (n : storeNode) (h : n.info.State ≠ .Created) :
    n.Run w = (n, [], some .ErrInvalidTransition) := by
  simp [storeNode.Run, h]

/-- C1: Create on a node whose state is not Initializing, and Run on a node
whose state is not Created, return ErrInvalidTransition, leave the whole node
(info, sandbox handle, cache keys and all other fields) as it was and make no
call to any collaborator. -/
theorem C1_invalid_transition_changes_nothing (w : World) (n : storeNode) :
    (n.info.State ≠ .Initializing → n.Create w = (n, [], some .ErrInvalidTransition)) ∧
    (n.info.State ≠ .Created → n.Run w = (n, [], some .ErrInvalidTransition)) :=
  ⟨Create_of_not_initializing w n, Run_of_not_created w n⟩

/-- Witness for C1: a node still in state Reserved refuses both Create and
Run. -/
theorem C1_invalid_transition_witness :
    (sampleNode .Reserved).Create sampleWorld
        = (sampleNode .Reserved, [], some .ErrInvalidTransition) ∧
      (sampleNode .Reserved).Run sampleWorld
        = (sampleNode .Reserved, [], some .ErrInvalidTransition) :=
  ⟨(C1_invalid_transition_changes_nothing sampleWorld (sampleNode .Reserved)).1 (by decide),
   (C1_invalid_transition_changes_nothing sampleWorld (sampleNode .Reserved)).2 (by decide)⟩

/-! ## Expire (C4) -/

theorem timeUnix_zero (nsec : Int) : timeUnix 0 nsec = nsec := by
  simp [timeUnix]

/-- A duration above the least one is reached by `t.Sub(u)` exactly when the
exact difference reaches it. -/
theorem le_timeSub_iff (t u d : Int) (hmin : minDuration < d) (hmax : d ≤ maxDuration) :
    d ≤ timeSub t u ↔ d ≤ t - u := by
  unfold timeSub
  simp only [minDuration, maxDuration] at *
  split_ifs with h1 h2
  · constructor <;> intro h <;> omega
  · constructor <;> intro h <;> omega
  · rfl

/-- C4: Expire(now) returns true exactly when the state is Reserved and the
lifespan `now.Sub(time.Unix(0, AllocatedAt))` is at least
ReservedExpirationTime, equality included.  When it returns true the node is
Completed with failed=true and reason "expired container" and the one call
made is the emission of the completion event; when it returns false the node
is unchanged and no call is made.  For an expiration time that is a duration
above the least one, the lifespan may be read as the exact difference
now − AllocatedAt. -/
theorem C4_expire (n : storeNode) (now : Int) :
    ((n.Expire now).2.2 = true ↔
      n.info.State = .Reserved ∧
        n.config.ReservedExpirationTime ≤ timeSub now (timeUnix 0 n.info.AllocatedAt)) ∧
    ((n.Expire now).2.2 = true →
      (n.Expire now).1.info.State = .Completed ∧
      (n.Expire now).1.info.RunResult.Failed = true ∧
      (n.Expire now).1.info.RunResult.FailureReason = "expired container" ∧
      (n.Expire now).2.1 = [Call.Emit (.ContainerCompleteEvent (n.Expire now).1.info)]) ∧
    ((n.Expire now).2.2 = false → (n.Expire now).1 = n ∧ (n.Expire now).2.1 = []) ∧
    (minDuration < n.config.ReservedExpirationTime →
      n.config.ReservedExpirationTime ≤ maxDuration →
      ((n.Expire now).2.2 = true ↔
        n.info.State = .Reserved ∧ n.config.ReservedExpirationTime ≤ now - n.info.AllocatedAt)) := by
  by_cases h1 : n.info.State = .Reserved <;>
    by_cases h2 : n.config.ReservedExpirationTime
        ≤ timeSub now (timeUnix 0 n.info.AllocatedAt)
  · refine ⟨?_, ?_, ?_, ?_⟩
    · simp [storeNode.Expire, h1, h2]
    · simp [storeNode.Expire, h1, h2, Container.TransitionToComplete, ContainerExpirationMessage]
    · simp [storeNode.Expire, h1, h2]
    · intro hmin hmax
      rw [timeUnix_zero, le_timeSub_iff _ _ _ hmin hmax] at h2
      simp [storeNode.Expire, h1, h2, timeUnix_zero, le_timeSub_iff _ _ _ hmin hmax]
  · refine ⟨?_, ?_, ?_, ?_⟩
    · simp [storeNode.Expire, h1, h2]
    · simp [storeNode.Expire, h1, h2]
    · simp [storeNode.Expire, h1, h2]
    · intro hmin hmax
      rw [timeUnix_zero, le_timeSub_iff _ _ _ hmin hmax] at h2
      simp [storeNode.Expire, h1, h2, timeUnix_zero, le_timeSub_iff _ _ _ hmin hmax]
  · simp [storeNode.Expire, h1]
  · simp [storeNode.Expire, h1]

/-- Witness for C4 (scenario 5 of the spec): a reservation allocated at t0
with an expiration time of one second expires at exactly t0 + 1s. -/
theorem C4_expire_witness :
    ((sampleNode .Reserved).Expire (10 ^ 9)).2.2 = true ∧
    ((sampleNode .Reserved).Expire (10 ^ 9)).1.info.State = .Completed ∧
    ((sampleNode .Reserved).Expire (10 ^ 9)).1.info.RunResult.Failed = true ∧
    ((sampleNode .Reserved).Expire (10 ^ 9)).1.info.RunResult.FailureReason
      = "expired container" ∧
    ((sampleNode .Reserved).Expire (10 ^ 9)).2.1
      = [Call.Emit (.ContainerCompleteEvent ((sampleNode .Reserved).Expire (10 ^ 9)).1.info)] :=
  have h : ((sampleNode .Reserved).Expire (10 ^ 9)).2.2 = true :=
    ((C4_expire (sampleNode .Reserved) (10 ^ 9)).2.2.2 (by decide) (by decide)).2
      ⟨rfl, by decide⟩
  ⟨h, (C4_expire (sampleNode .Reserved) (10 ^ 9)).2.1 h⟩

/-! ## Reap (C5) -/

/-- C5, as the code has it: Reap returns true exactly when the state is
Created, whether or not a sandbox handle is attached to the node.  When it
returns true the node is Completed with failed=true and reason "missing garden
container" and the one call made is the emission of the completion event; when
it returns false the node is unchanged and no call is made. -/
theorem C5_reap (n : storeNode) :
    (n.Reap.2.2 = true ↔ n.info.State = .Created) ∧
    (n.Reap.2.2 = true →
      n.Reap.1.info.State = .Completed ∧
      n.Reap.1.info.RunResult.Failed = true ∧
      n.Reap.1.info.RunResult.FailureReason = "missing garden container" ∧
      n.Reap.1.gardenContainer = n.gardenContainer ∧
      n.Reap.2.1 = [Call.Emit (.ContainerCompleteEvent n.Reap.1.info)]) ∧
    (n.Reap.2.2 = false → n.Reap.1 = n ∧ n.Reap.2.1 = []) := by
  unfold storeNode.Reap Container.IsCreated
  by_cases h : n.info.State = .Created <;>
    simp [h, Container.TransitionToComplete, ContainerMissingMessage]

/-- Witness for C5 (scenario 6 of the spec): a node in state Created whose
sandbox handle is gone is reaped. -/
theorem C5_reap_witness :
    (sampleNode .Created).Reap.2.2 = true ∧
    (sampleNode .Created).Reap.1.info.State = .Completed ∧
    (sampleNode .Created).Reap.1.info.RunResult.Failed = true ∧
    (sampleNode .Created).Reap.1.info.RunResult.FailureReason = "missing garden container" ∧
    (sampleNode .Created).Reap.1.gardenContainer = (sampleNode .Created).gardenContainer ∧
    (sampleNode .Created).Reap.2.1
      = [Call.Emit (.ContainerCompleteEvent (sampleNode .Created).Reap.1.info)] :=
  have h : (sampleNode .Created).Reap.2.2 = true :=
    (C5_reap (sampleNode .Created)).1.2 rfl
  ⟨h, (C5_reap (sampleNode .Created)).2.1 h⟩

/-- Counterexample to C5 as stated: a node in state Created that still has its
sandbox handle attached is reaped all the same; Reap returns true and
completes it. -/
theorem C5_reap_counterexample :
    sampleCreatedNode.info.State = .Created ∧
    sampleCreatedNode.gardenContainer = some { Handle := "g1" } ∧
    sampleCreatedNode.Reap.2.2 = true ∧
    sampleCreatedNode.Reap.1.info.State = .Completed ∧
    sampleCreatedNode.Reap.1 ≠ sampleCreatedNode := by
  decide

/-! ## Completion events (C2) -/

@[simp] theorem completions_nil : completions [] = 0 := rfl

@[simp] theorem completions_cons (c : Call) (cs : List Call) :
    completions (c :: cs) = (if c.isCompletion then 1 else 0) + completions cs := by
  simp [completions, List.countP_cons, Nat.add_comm]

@[simp] theorem completions_append (a b : List Call) :
    completions (a ++ b) = completions a + completions b := by
  simp [completions, List.countP_append]

theorem completions_mountVolumesFrom (w : World) (vs : List VolumeMount) (i : Nat) :
    completions (mountVolumesFrom w i vs).1 = 0 := by
  induction vs generalizing i with
  | nil => rfl
  | cons v rest ih =>
    unfold mountVolumesFrom
    have := ih (i + 1)
    split
    · simp [Call.isCompletion]
    · split <;> simp_all [Call.isCompletion]

theorem completions_unmountVolumesFrom (w : World) (vs : List VolumeMount) (i : Nat) :
    completions (unmountVolumesFrom w i vs).1 = 0 := by
  induction vs generalizing i with
  | nil => rfl
  | cons v rest ih =>
    have := ih (i + 1)
    simp_all [unmountVolumesFrom, Call.isCompletion]

theorem completions_destroyContainer (w : World) (n : storeNode) :
    completions (n.destroyContainer w).1 = 0 := by
  unfold storeNode.destroyContainer
  split
  · rfl
  · rfl
  · split <;> rfl


theorem completions_createGardenContainer (w : World) (n : storeNode) (info : Container) :
    completions (n.createGardenContainer w info).1 = 0 := by
  have hd := completions_destroyContainer w n
  cases h1 : w.convertEgressToNetOut info.RunInfo.EgressRules <;>
  cases h2 : w.GardenCreate <;>
  cases h3 : w.GardenContainerInfo 0 <;>
  cases h4 : w.GardenContainerInfo 1 <;>
  simp [storeNode.createGardenContainer, createContainer, fetchIPs,
    Container.TransistionToCreate, h1, h2, h3, h4, hd, Call.isCompletion]
  split <;> simp [Call.isCompletion]


theorem completions_mountVolumes (w : World) (info : Container) :
    completions (storeNode.mountVolumes w info).1 = 0 :=
  completions_mountVolumesFrom w _ 0

theorem completions_complete (n : storeNode) (failed : Bool) (reason : String) :
    completions (n.complete failed reason).2 = 1 := by
  simp [storeNode.complete, Call.isCompletion]

theorem state_complete (n : storeNode) (failed : Bool) (reason : String) :
    (n.complete failed reason).1.info.State = .Completed := by
  simp [storeNode.complete, Container.TransitionToComplete]

theorem pending_le_one (n : storeNode) : n.pending ≤ 1 := by
  unfold storeNode.pending; split_ifs <;> omega

theorem pending_complete (n : storeNode) (failed : Bool) (reason : String) :
    (n.complete failed reason).1.pending = 0 := by
  simp [storeNode.pending, state_complete]

/-- A Create on an Initializing node emits a Completion event only when it
leaves the node Completed, and then one. -/
theorem Create_pending (w : World) (n : storeNode) (h : n.info.State = .Initializing) :
    completions (n.Create w).2.1 + (n.Create w).1.pending ≤ 1 := by
  have hv : n.info.ValidateTransitionTo .Created = true := by
    simp [Container.ValidateTransitionTo, h]
  unfold storeNode.Create
  simp only [hv, Bool.not_true, Bool.false_eq_true, if_false]
  split
  · simp [completions_complete, pending_complete, Call.isCompletion]
  · split
    · rename_i hm
      have h2 := congrArg (fun r => completions r.1) hm
      simp only [completions_mountVolumes] at h2
      simp [completions_complete, pending_complete, Call.isCompletion, ← h2]
    · rename_i hm
      have h2 := congrArg (fun r => completions r.1) hm
      simp only [completions_mountVolumes] at h2
      split
      · simp [Call.isCompletion, ← h2, pending_le_one]
      · split
        · simp [completions_complete, pending_complete, Call.isCompletion, ← h2]
        · split
          · rename_i hg
            have h6 := congrArg (fun r => completions r.1) hg
            simp only [completions_createGardenContainer] at h6
            simp [completions_complete, pending_complete, Call.isCompletion, ← h2, ← h6]
          · rename_i hg
            have h6 := congrArg (fun r => completions r.1) hg
            simp only [completions_createGardenContainer] at h6
            simp [Call.isCompletion, ← h2, ← h6, pending_le_one]


theorem completeWithErrorString_spec (n : storeNode) (errorStr : String) :
    completions (n.completeWithErrorString errorStr).2 = 1 ∧
      (n.completeWithErrorString errorStr).1.info.State = .Completed := by
  unfold storeNode.completeWithErrorString
  split_ifs <;> exact ⟨completions_complete _ _ _, state_complete _ _ _⟩

mutual
theorem completeWithGoError_spec (n : storeNode) : (err : GoError) →
    completions (n.completeWithGoError err).2 = 1 ∧
      (n.completeWithGoError err).1.info.State = .Completed
  | .ErrorTrace exitTrace => by
      unfold storeNode.completeWithGoError
      have h := completeWithExitTrace_spec n exitTrace
      split
      · rename_i done hdone
        exact h done hdone
      · exact completeWithErrorString_spec _ _
  | .ErrInvalidTransition => by
      unfold storeNode.completeWithGoError
      exact completeWithErrorString_spec _ _
  | .ContainerNotFoundError _ => by
      unfold storeNode.completeWithGoError
      exact completeWithErrorString_spec _ _
  | .errorString _ => by
      unfold storeNode.completeWithGoError
      exact completeWithErrorString_spec _ _
theorem completeWithExitTrace_spec (n : storeNode) : (trace : ExitTrace) →
    ∀ done, n.completeWithExitTrace trace = some done →
      completions done.2 = 1 ∧ done.1.info.State = .Completed
  | .nil => by
      intro done h
      simp [storeNode.completeWithExitTrace] at h
  | .exited _ rest => by
      intro done h
      unfold storeNode.completeWithExitTrace at h
      exact completeWithExitTrace_spec n rest done h
  | .failed member err _ => by
      intro done h
      unfold storeNode.completeWithExitTrace at h
      split_ifs at h with hm
      · cases h
        exact completeWithErrorString_spec _ _
      · cases h
        exact completeWithGoError_spec n err
end

theorem completeWithError_spec (n : storeNode) (err : Option GoError) :
    completions (n.completeWithError err).2 = 1 ∧
      (n.completeWithError err).1.info.State = .Completed := by
  cases err with
  | none => exact completeWithErrorString_spec _ _
  | some e => exact completeWithGoError_spec n e

theorem Run_pending (w : World) (n : storeNode) :
    completions (n.Run w).2.1 + (n.Run w).1.pending ≤ 1 := by
  unfold storeNode.Run
  split_ifs with hs
  · simp [pending_le_one]
  · split
    · have h := completeWithError_spec n (some ‹GoError›)
      simp [Call.isCompletion, h.1, storeNode.pending, h.2]
    · split <;> simp [Call.isCompletion, pending_le_one]

/-- A node in state Completed is left as it is, without any call, by every
operation other than Stop and Destroy. -/
theorem apply_of_completed (n : storeNode) (op : Op) (h : n.info.State = .Completed)
    (hop : op.isStopOrDestroy = false) : n.apply op = (n, []) := by
  cases op with
  | Initialize req =>
      simp [storeNode.apply, storeNode.Initialize, Container.TransistionToInitialize,
        Container.ValidateTransitionTo, h]
  | Create w =>
      simp [storeNode.apply, storeNode.Create, Container.ValidateTransitionTo, h]
  | Run w => simp [storeNode.apply, storeNode.Run, h]
  | Stop => simp [Op.isStopOrDestroy] at hop
  | Destroy w => simp [Op.isStopOrDestroy] at hop
  | Expire now => simp [storeNode.apply, storeNode.Expire, h]
  | Reap => simp [storeNode.apply, storeNode.Reap, Container.IsCreated, h]

/-- The internal stop path on a node with a supervisor: the Stopped flag is
set, the supervisor is signalled, and nothing else of the info changes. -/
theorem stop_of_process (n : storeNode) (p : Process) (h : n.process = some p) :
    n.stop.1.info.State = n.info.State ∧
    n.stop.1.info.RunResult.Failed = n.info.RunResult.Failed ∧
    n.stop.1.info.RunResult.FailureReason = n.info.RunResult.FailureReason ∧
    completions n.stop.2.1 = 0 ∧
    n.stop.2.2 = none := by
  unfold storeNode.stop
  simp only [h]
  by_cases hs : n.info.RunResult.Stopped <;> simp [hs, Call.isCompletion]

/-- The internal stop path on a node without supervisor: the node is completed
with "stopped-before-running", whatever its state was. -/
theorem stop_of_no_process (n : storeNode) (h : n.process = none) :
    n.stop.1.info.State = .Completed ∧
    n.stop.1.info.RunResult.Failed = true ∧
    n.stop.1.info.RunResult.FailureReason = "stopped-before-running" ∧
    n.stop.1.info.RunResult.Stopped = true ∧
    n.stop.2.1 = [Call.Emit (.ContainerCompleteEvent n.stop.1.info)] ∧
    n.stop.2.2 = none := by
  unfold storeNode.stop
  simp [h, storeNode.complete, Container.TransitionToComplete]

theorem stop_returns_nil (n : storeNode) : n.stop.2.2 = none := by
  cases h : n.process with
  | none => exact (stop_of_no_process n h).2.2.2.2.2
  | some p => exact (stop_of_process n p h).2.2.2.2

/-- Destroy leaves the node as the internal stop path leaves it, and emits the
Completion events of that path and no other. -/
theorem Destroy_node (w : World) (n : storeNode) :
    (n.Destroy w).1 = n.stop.1 ∧ completions (n.Destroy w).2.1 = completions n.stop.2.1 := by
  have hr := stop_returns_nil n
  have hd := completions_destroyContainer w n.stop.1
  have hu := completions_unmountVolumesFrom w n.stop.1.info.RunInfo.VolumeMounts 0
  unfold storeNode.Destroy
  rcases hstop : n.stop with ⟨n1, c1, r⟩
  rw [hstop] at hr hd hu
  simp only at hr hd hu
  subst hr
  simp only
  split
  · rename_i hdc
    have h4 := congrArg (fun r => completions r.1) hdc
    simp only [hd] at h4
    by_cases hp : n1.process.isSome <;> simp [hp, Call.isCompletion, ← h4]
  · rename_i hdc
    have h4 := congrArg (fun r => completions r.1) hdc
    simp only [hd] at h4
    by_cases hp : n1.process.isSome <;> simp [hp, Call.isCompletion, ← h4, hu]

/-- One operation emits at most the Completion event the node still had
pending, and one more when it is Stop or Destroy. -/
theorem apply_pending (n : storeNode) (op : Op) :
    completions (n.apply op).2 + (n.apply op).1.pending
      ≤ n.pending + (if op.isStopOrDestroy then 1 else 0) := by
  by_cases hstop : op.isStopOrDestroy = true
  · have hs : completions n.stop.2.1 + n.stop.1.pending ≤ n.pending + 1 := by
      cases hp : n.process with
      | none =>
          have h := stop_of_no_process n hp
          rw [h.2.2.2.2.1]
          simp [Call.isCompletion, storeNode.pending, h.1]
      | some p =>
          have h := stop_of_process n p hp
          rw [h.2.2.2.1]
          simp [storeNode.pending, h.1]
    cases op with
    | Stop => simpa [storeNode.apply, storeNode.Stop, Op.isStopOrDestroy] using hs
    | Destroy w =>
        have hd := Destroy_node w n
        simpa [storeNode.apply, Op.isStopOrDestroy, hd.1, hd.2] using hs
    | _ => simp [Op.isStopOrDestroy] at hstop
  · have hop : op.isStopOrDestroy = false := by simpa using hstop
    by_cases hc : n.info.State = .Completed
    · rw [apply_of_completed n op hc hop]
      simp [hop]
    · have hp : n.pending = 1 := by simp [storeNode.pending, hc]
      rw [hp]
      simp only [hop, Bool.false_eq_true, if_false, Nat.add_zero]
      cases op with
      | Initialize req =>
          simp only [storeNode.apply, storeNode.Initialize]
          split <;> simp [pending_le_one]
      | Create w =>
          by_cases hi : n.info.State = .Initializing
          · exact Create_pending w n hi
          · rw [show n.apply (.Create w) = (n, []) from by
              simp [storeNode.apply,
                Create_of_not_initializing w n hi]]
            simp [hp]
      | Run w => exact Run_pending w n
      | Stop => simp [Op.isStopOrDestroy] at hop
      | Destroy w => simp [Op.isStopOrDestroy] at hop
      | Expire now =>
          simp only [storeNode.apply, storeNode.Expire]
          split_ifs <;>
            simp [Call.isCompletion, storeNode.pending, Container.TransitionToComplete,
              pending_le_one, hc]
      | Reap =>
          simp only [storeNode.apply, storeNode.Reap]
          split_ifs <;>
            simp [Call.isCompletion, storeNode.pending, Container.TransitionToComplete,
              pending_le_one, hc]

theorem applyAll_pending (n : storeNode) (ops : List Op) :
    completions (n.applyAll ops).2 + (n.applyAll ops).1.pending
      ≤ n.pending + ops.countP Op.isStopOrDestroy := by
  induction ops generalizing n with
  | nil => simp [storeNode.applyAll]
  | cons op rest ih =>
      have h1 := apply_pending n op
      have h2 := ih (n.apply op).1
      simp only [storeNode.applyAll, completions_append, List.countP_cons]
      omega

theorem process_complete (n : storeNode) (failed : Bool) (reason : String) :
    (n.complete failed reason).1.process = n.process := rfl

theorem process_stop (n : storeNode) : n.stop.1.process = n.process := by
  unfold storeNode.stop
  cases h : n.process <;> simp [h, storeNode.complete]

theorem process_Create (w : World) (n : storeNode) : (n.Create w).1.process = n.process := by
  unfold storeNode.Create
  dsimp only
  split
  · rfl
  · split
    · rfl
    · split
      · rfl
      · split
        · rfl
        · split
          · rfl
          · split <;> rfl

/-- The operations other than Run leave the supervisor process of the node
as it is: none of them attaches one. -/
theorem process_apply_of_not_run (n : storeNode) (op : Op) (h : op.isRun = false) :
    (n.apply op).1.process = n.process := by
  cases op with
  | Initialize req =>
      simp only [storeNode.apply, storeNode.Initialize]
      split <;> rfl
  | Create w => exact process_Create w n
  | Run w => simp [Op.isRun] at h
  | Stop => exact process_stop n
  | Destroy w =>
      show (n.Destroy w).1.process = n.process
      rw [(Destroy_node w n).1]
      exact process_stop n
  | Expire now =>
      simp only [storeNode.apply, storeNode.Expire]
      split_ifs <;> rfl
  | Reap =>
      simp only [storeNode.apply, storeNode.Reap]
      split_ifs <;> rfl

/-- Stop and Destroy on a node without supervisor process emit exactly one
Completion event. -/
theorem completions_apply_of_no_process (n : storeNode) (op : Op) (hp : n.process = none)
    (hop : op.isStopOrDestroy = true) : completions (n.apply op).2 = 1 := by
  have hs := stop_of_no_process n hp
  have h1 : completions n.stop.2.1 = 1 := by
    rw [hs.2.2.2.2.1]
    simp [Call.isCompletion]
  cases op with
  | Stop => simpa [storeNode.apply, storeNode.Stop] using h1
  | Destroy w => simpa [storeNode.apply, (Destroy_node w n).2] using h1
  | _ => simp [Op.isStopOrDestroy] at hop

theorem applyAll_of_no_process (n : storeNode) (ops : List Op) (hp : n.process = none)
    (hops : ∀ op ∈ ops, op.isRun = false) :
    (n.applyAll ops).1.process = none ∧
    ops.countP Op.isStopOrDestroy ≤ completions (n.applyAll ops).2 := by
  induction ops generalizing n with
  | nil => simp [storeNode.applyAll, hp]
  | cons op rest ih =>
      have hop := hops op (List.mem_cons_self _ _)
      have hp1 : (n.apply op).1.process = none := by
        rw [process_apply_of_not_run n op hop, hp]
      have h2 := ih (n.apply op).1 hp1 (fun o ho => hops o (List.mem_cons_of_mem _ ho))
      refine ⟨by simpa [storeNode.applyAll] using h2.1, ?_⟩
      simp only [storeNode.applyAll, completions_append, List.countP_cons]
      by_cases hsd : op.isStopOrDestroy = true
      · have h1 := completions_apply_of_no_process n op hp hsd
        simp only [hsd, if_true]
        omega
      · simp only [hsd, Bool.false_eq_true, if_false]
        omega

/-- C2, as the code has it: for every store node without supervisor process
and every finite sequence of the operations Initialize, Create, Stop, Destroy,
Expire and Reap, the node stays without supervisor process and the Completion
events emitted are at least as many as the Stop and Destroy operations of the
sequence and at most one more; they are exactly as many when the node starts
out Completed.  Every Stop and every Destroy emits exactly one Completion
event, whatever the state of the node; Initialize, Create, Expire and Reap
emit at most one between them, and none on a Completed node. -/
theorem C2_completion_events (n : storeNode) (ops : List Op) (hp : n.process = none)
    (hops : ∀ op ∈ ops, op.isRun = false) :
    (n.applyAll ops).1.process = none ∧
    ops.countP Op.isStopOrDestroy ≤ completions (n.applyAll ops).2 ∧
    completions (n.applyAll ops).2 ≤ 1 + ops.countP Op.isStopOrDestroy ∧
    (n.info.State = .Completed →
      completions (n.applyAll ops).2 = ops.countP Op.isStopOrDestroy) ∧
    completions (n.apply .Stop).2 = 1 ∧
    (∀ w, completions (n.apply (.Destroy w)).2 = 1) := by
  have h := applyAll_pending n ops
  have hl := applyAll_of_no_process n ops hp hops
  refine ⟨hl.1, hl.2, ?_, ?_, ?_, ?_⟩
  · have := pending_le_one n
    omega
  · intro hc
    have : n.pending = 0 := by simp [storeNode.pending, hc]
    have := hl.2
    omega
  · exact completions_apply_of_no_process n .Stop hp rfl
  · intro w
    exact completions_apply_of_no_process n (.Destroy w) hp rfl

/-- Witness for C2: a reservation that expires, is then initialized, created
and reaped emits its one Completion event; the expired node emits exactly the
Completion event of the one Stop in a further sequence; and a Stop on a
created node emits one. -/
theorem C2_completion_events_witness :
    (sampleNode .Reserved).process = none ∧
    completions
        ((sampleNode .Reserved).applyAll
          [.Expire (10 ^ 9), .Initialize { RunInfo := sampleRunInfo }, .Create sampleWorld,
            .Reap]).2
      ≤ 1 + 0 ∧
    completions (sampleExpiredNode.applyAll [.Reap, .Expire 0, .Stop, .Create sampleWorld]).2
      = 1 ∧
    completions ((sampleNode .Created).apply .Stop).2 = 1 :=
  ⟨rfl,
   (C2_completion_events (sampleNode .Reserved)
      [.Expire (10 ^ 9), .Initialize { RunInfo := sampleRunInfo }, .Create sampleWorld, .Reap]
      rfl (by simp [Op.isRun])).2.2.1,
   (C2_completion_events sampleExpiredNode [.Reap, .Expire 0, .Stop, .Create sampleWorld] rfl
      (by simp [Op.isRun])).2.2.2.1 (by decide),
   (C2_completion_events (sampleNode .Created) [] rfl (by simp)).2.2.2.2.1⟩

/-- Counterexample to C2 as stated: two Stops on a created node that was
never run emit two Completion events. -/
theorem C2_completion_events_counterexample :
    completions ((sampleNode .Created).applyAll [.Stop, .Stop]).2 = 2 := by
  decide

/-! ## Port mappings (C6) -/
theorem mapLookup_mapSet {α β : Type} [DecidableEq α] (m : List (α × β)) (k : α) (v : β) (k1 : α) :
    mapLookup (mapSet m k v) k1 = if k = k1 then some v else mapLookup m k1 := by
  induction m with
  | nil => simp [mapSet, mapLookup]
  | cons kv rest ih =>
    obtain ⟨k2, v2⟩ := kv
    unfold mapSet
    by_cases h : k2 = k
    · subst h
      by_cases h1 : k2 = k1 <;> simp [mapLookup, h1]
    · by_cases h1 : k = k1
      · subst h1
        simp [mapLookup, h, ih]
      · by_cases h2 : k2 = k1
        · subst h2
          simp [mapLookup, h, h1]
        · simp [mapLookup, h, h1, h2, ih]

theorem keys_mapSet {α β : Type} [DecidableEq α] (m : List (α × β)) (k : α) (v : β) :
    (mapSet m k v).map Prod.fst
      = if k ∈ m.map Prod.fst then m.map Prod.fst else m.map Prod.fst ++ [k] := by
  induction m with
  | nil => simp [mapSet]
  | cons kv rest ih =>
    obtain ⟨k2, v2⟩ := kv
    unfold mapSet
    by_cases h : k2 = k
    · subst h
      simp
    · have h' : ¬ k = k2 := fun e => h e.symm
      by_cases hm : k ∈ rest.map Prod.fst
      · simp [h, h', ih, hm]
      · simp [h, h', ih, hm]

theorem nodup_keys_mapSet {α β : Type} [DecidableEq α] (m : List (α × β)) (k : α) (v : β)
    (h : (m.map Prod.fst).Nodup) : ((mapSet m k v).map Prod.fst).Nodup := by
  rw [keys_mapSet]
  split_ifs with hk
  · exact h
  · exact List.Nodup.append h (List.nodup_singleton k) (by simpa using hk)

theorem mem_iff_mapLookup {α β : Type} [DecidableEq α] (m : List (α × β)) (h : (m.map Prod.fst).Nodup) (k : α) (v : β) :
    (k, v) ∈ m ↔ mapLookup m k = some v := by
  induction m with
  | nil => simp [mapLookup]
  | cons kv rest ih =>
    obtain ⟨k2, v2⟩ := kv
    simp only [List.map_cons, List.nodup_cons] at h
    by_cases hk : k2 = k
    · subst hk
      simp only [mapLookup, if_true, List.mem_cons, Prod.mk.injEq, true_and, Option.some.injEq]
      constructor
      · rintro (h1 | h1)
        · exact h1.symm
        · exact absurd (List.mem_map_of_mem Prod.fst h1) h.1
      · intro h1
        exact Or.inl h1.symm
    · have hk' : ¬ k = k2 := fun e => hk e.symm
      simp [mapLookup, hk, hk', ih h.2]

theorem mapLookup_foldl {α β γ : Type} [DecidableEq α] (key : γ → α) (val : γ → β) (l : List γ) (k : α) :
    mapLookup (l.foldl (fun m x => mapSet m (key x) (val x)) []) k
      = ((l.filter fun x => key x = k).getLast?).map val := by
  induction l using List.reverseRecOn with
  | nil => simp [mapLookup]
  | append_singleton l x ih =>
    rw [List.foldl_append]
    simp only [List.foldl_cons, List.foldl_nil, mapLookup_mapSet, ih, List.filter_append]
    by_cases h : key x = k
    · simp [h, List.filter_cons]
    · simp [h, List.filter_cons]

theorem nodup_keys_foldl {α β γ : Type} [DecidableEq α] (key : γ → α) (val : γ → β) (l : List γ) :
    ((l.foldl (fun m x => mapSet m (key x) (val x)) []).map Prod.fst).Nodup := by
  induction l using List.reverseRecOn with
  | nil => simp
  | append_singleton l x ih =>
    rw [List.foldl_append]
    exact nodup_keys_mapSet _ _ _ ih

theorem filter_key_of_nodup {α γ : Type} [DecidableEq α] (key : γ → α) (l : List γ) (h : (l.map key).Nodup) (x : γ)
    (hx : x ∈ l) : (l.filter fun y => key y = key x) = [x] := by
  induction l with
  | nil => simp at hx
  | cons y rest ih =>
    simp only [List.map_cons, List.nodup_cons] at h
    rcases List.mem_cons.1 hx with rfl | hx'
    · have : rest.filter (fun y => key y = key x) = [] := by
        rw [List.filter_eq_nil_iff]
        intro z hz hzk
        exact h.1 (by simpa using ⟨z, hz, by simpa using hzk⟩)
      simp [List.filter_cons, this]
    · have hne : ¬ key y = key x := by
        intro e
        exact h.1 (by rw [e]; exact List.mem_map_of_mem key hx')
      simp [List.filter_cons, hne, ih h.2 hx']


theorem isProxyPort_iff (mappings : List ProxyPortMapping) (k : Nat) :
    (mapLookup (mappings.foldl (fun m mapping => mapSet m mapping.ProxyPort ()) []) k).isSome
      ↔ ∃ mapping ∈ mappings, mapping.ProxyPort = k := by
  rw [mapLookup_foldl (fun mapping : ProxyPortMapping => mapping.ProxyPort) (fun _ => ())]
  simp [List.filter_eq_nil_iff]

theorem mapGet_appPorts (mappings : List ProxyPortMapping) (k : Nat) :
    mapGet (mappings.foldl (fun m mapping => mapSet m mapping.AppPort mapping.ProxyPort) []) k
      = proxyPortOf mappings k := by
  unfold mapGet proxyPortOf
  rw [mapLookup_foldl (fun mapping : ProxyPortMapping => mapping.AppPort)
    (fun mapping => mapping.ProxyPort)]

theorem mapGet_mappedPorts (mappedPorts : List GardenPortMapping) (k : Nat) :
    mapGet
        (mappedPorts.foldl
          (fun m portMapping =>
            mapSet m (uint16OfUint32 portMapping.ContainerPort)
              (uint16OfUint32 portMapping.HostPort))
          [])
        k
      = hostPortOf mappedPorts k := by
  unfold mapGet hostPortOf
  rw [mapLookup_foldl (fun portMapping : GardenPortMapping =>
      uint16OfUint32 portMapping.ContainerPort)
    (fun portMapping => uint16OfUint32 portMapping.HostPort)]

theorem mem_mappedPorts_iff (mappedPorts : List GardenPortMapping)
    (hd : (mappedPorts.map fun portMapping => uint16OfUint32 portMapping.ContainerPort).Nodup)
    (k v : Nat) :
    (k, v) ∈ mappedPorts.foldl
        (fun m portMapping =>
          mapSet m (uint16OfUint32 portMapping.ContainerPort)
            (uint16OfUint32 portMapping.HostPort))
        []
      ↔ ∃ portMapping ∈ mappedPorts,
          uint16OfUint32 portMapping.ContainerPort = k ∧
            uint16OfUint32 portMapping.HostPort = v := by
  rw [mem_iff_mapLookup _ (nodup_keys_foldl _ _ _),
    mapLookup_foldl (fun portMapping : GardenPortMapping =>
      uint16OfUint32 portMapping.ContainerPort)
    (fun portMapping => uint16OfUint32 portMapping.HostPort)]
  constructor
  · intro h
    rw [Option.map_eq_some'] at h
    obtain ⟨x, hx, hv⟩ := h
    have hmem := List.mem_of_getLast?_eq_some hx
    rw [List.mem_filter] at hmem
    exact ⟨x, hmem.1, by simpa using hmem.2, hv⟩
  · rintro ⟨x, hx, rfl, rfl⟩
    rw [filter_key_of_nodup _ _ hd x hx]
    rfl

theorem nodup_filterMap_keys {δ : Type} (g : Nat × Nat → Option δ) (port : δ → Nat)
    (hg : ∀ kv d, g kv = some d → port d = kv.1) (m : List (Nat × Nat))
    (h : (m.map Prod.fst).Nodup) : ((m.filterMap g).map port).Nodup := by
  induction m with
  | nil => simp
  | cons kv rest ih =>
    simp only [List.map_cons, List.nodup_cons] at h
    rw [List.filterMap_cons]
    cases hkv : g kv with
    | none => exact ih h.2
    | some d =>
      simp only [List.map_cons, List.nodup_cons]
      refine ⟨?_, ih h.2⟩
      intro hmem
      rw [List.mem_map] at hmem
      obtain ⟨d2, hd2, hport⟩ := hmem
      rw [List.mem_filterMap] at hd2
      obtain ⟨kv2, hkv2, hg2⟩ := hd2
      apply h.1
      rw [← hg kv d hkv, ← hport, hg kv2 d2 hg2]
      exact List.mem_map_of_mem Prod.fst hkv2

/-- The result of portMappingFromContainerInfo for ports of any size: every
port of the sandbox is read as `uint16`.  When the container ports are
pairwise distinct as `uint16` the result has, up to order, exactly one entry
for each mapped container port that is not the proxy port of a mapping, and
none for a proxy port. -/
theorem portMappingFromContainerInfo_uint16 (info : ContainerInfo) (mappings : List ProxyPortMapping)
    (hd : (info.MappedPorts.map fun portMapping =>
      uint16OfUint32 portMapping.ContainerPort).Nodup) :
    (∀ pm, pm ∈ portMappingFromContainerInfo info mappings ↔
      ∃ portMapping ∈ info.MappedPorts,
        (∀ mapping ∈ mappings, mapping.ProxyPort ≠ uint16OfUint32 portMapping.ContainerPort) ∧
        pm =
          { HostPort := uint16OfUint32 portMapping.HostPort
            ContainerPort := uint16OfUint32 portMapping.ContainerPort
            ContainerTLSProxyPort :=
              proxyPortOf mappings (uint16OfUint32 portMapping.ContainerPort)
            HostTLSProxyPort :=
              hostPortOf info.MappedPorts
                (proxyPortOf mappings (uint16OfUint32 portMapping.ContainerPort)) }) ∧
    ((portMappingFromContainerInfo info mappings).map fun pm => pm.ContainerPort).Nodup ∧
    (∀ pm ∈ portMappingFromContainerInfo info mappings,
      ∀ mapping ∈ mappings, mapping.ProxyPort ≠ pm.ContainerPort) := by
  have hmem : ∀ pm, pm ∈ portMappingFromContainerInfo info mappings ↔
      ∃ portMapping ∈ info.MappedPorts,
        (∀ mapping ∈ mappings, mapping.ProxyPort ≠ uint16OfUint32 portMapping.ContainerPort) ∧
        pm =
          { HostPort := uint16OfUint32 portMapping.HostPort
            ContainerPort := uint16OfUint32 portMapping.ContainerPort
            ContainerTLSProxyPort :=
              proxyPortOf mappings (uint16OfUint32 portMapping.ContainerPort)
            HostTLSProxyPort :=
              hostPortOf info.MappedPorts
                (proxyPortOf mappings (uint16OfUint32 portMapping.ContainerPort)) } := by
    intro pm
    unfold portMappingFromContainerInfo
    simp only [List.mem_filterMap, Prod.exists, mem_mappedPorts_iff _ hd, mapGet_appPorts,
      mapGet_mappedPorts]
    constructor
    · rintro ⟨k, v, ⟨gp, hgp, rfl, rfl⟩, hout⟩
      by_cases hp : (mapLookup
          (mappings.foldl (fun m mapping => mapSet m mapping.ProxyPort ()) [])
          (uint16OfUint32 gp.ContainerPort)).isSome
      · simp [hp] at hout
      · simp only [hp, Bool.false_eq_true, if_false, Option.some.injEq] at hout
        rw [isProxyPort_iff] at hp
        refine ⟨gp, hgp, ?_, hout.symm⟩
        intro mapping hm he
        exact hp ⟨mapping, hm, he⟩
    · rintro ⟨gp, hgp, hnp, rfl⟩
      refine ⟨_, _, ⟨gp, hgp, rfl, rfl⟩, ?_⟩
      have hp : ¬ (mapLookup
          (mappings.foldl (fun m mapping => mapSet m mapping.ProxyPort ()) [])
          (uint16OfUint32 gp.ContainerPort)).isSome := by
        rw [isProxyPort_iff]
        rintro ⟨mapping, hm, he⟩
        exact hnp mapping hm he
      simp [hp]
  refine ⟨hmem, ?_, ?_⟩
  · unfold portMappingFromContainerInfo
    apply nodup_filterMap_keys _ _ _ _ (nodup_keys_foldl _ _ _)
    rintro ⟨k, v⟩ d hg
    by_cases hp : (mapLookup
        (mappings.foldl (fun m mapping => mapSet m mapping.ProxyPort ()) []) k).isSome
    · simp [hp] at hg
    · simp only [hp, Bool.false_eq_true, if_false, Option.some.injEq] at hg
      rw [← hg]
  · intro pm hpm mapping hm
    obtain ⟨gp, -, hnp, rfl⟩ := (hmem pm).1 hpm
    exact hnp mapping hm

theorem uint16OfUint32_of_lt (x : Nat) (h : x < 2 ^ 16) : uint16OfUint32 x = x :=
  Nat.mod_eq_of_lt h

theorem hostPortOf_of_port_numbers (mappedPorts : List GardenPortMapping)
    (hd : (mappedPorts.map fun portMapping => portMapping.ContainerPort).Nodup)
    (hports : ∀ portMapping ∈ mappedPorts,
      portMapping.ContainerPort < 2 ^ 16 ∧ portMapping.HostPort < 2 ^ 16)
    (containerPort : Nat) :
    hostPortOf mappedPorts containerPort = mappedHostPortOf mappedPorts containerPort := by
  induction mappedPorts with
  | nil => rfl
  | cons gp rest ih =>
    simp only [List.map_cons, List.nodup_cons] at hd
    have hgp := hports gp (List.mem_cons_self _ _)
    have hrest : ∀ portMapping ∈ rest,
        portMapping.ContainerPort < 2 ^ 16 ∧ portMapping.HostPort < 2 ^ 16 :=
      fun x hx => hports x (List.mem_cons_of_mem _ hx)
    have ih1 := ih hd.2 hrest
    unfold hostPortOf mappedHostPortOf at ih1 ⊢
    by_cases hk : gp.ContainerPort = containerPort
    · have hnone : (rest.filter fun portMapping =>
          uint16OfUint32 portMapping.ContainerPort = containerPort) = [] := by
        rw [List.filter_eq_nil_iff]
        intro x hx hxk
        apply hd.1
        have : x.ContainerPort = containerPort := by
          simpa [uint16OfUint32_of_lt _ (hrest x hx).1] using hxk
        rw [hk, ← this]
        exact List.mem_map_of_mem (fun portMapping => portMapping.ContainerPort) hx
      subst hk
      simp [List.filter_cons, List.find?_cons, uint16OfUint32_of_lt _ hgp.1,
        uint16OfUint32_of_lt _ hgp.2, hnone]
    · simp only [List.filter_cons, List.find?_cons, uint16OfUint32_of_lt _ hgp.1, hk,
        decide_False, Bool.false_eq_true, if_false]
      exact ih1

theorem mappedHostPortOf_of_not_mapped (mappedPorts : List GardenPortMapping)
    (containerPort : Nat)
    (h : ∀ portMapping ∈ mappedPorts, portMapping.ContainerPort ≠ containerPort) :
    mappedHostPortOf mappedPorts containerPort = 0 := by
  unfold mappedHostPortOf
  have : (mappedPorts.find? fun portMapping => portMapping.ContainerPort = containerPort)
      = none := by
    rw [List.find?_eq_none]
    intro x hx
    simpa using h x hx
  rw [this]
  rfl

theorem proxyPortOf_of_no_mapping (mappings : List ProxyPortMapping) (appPort : Nat)
    (h : ∀ mapping ∈ mappings, mapping.AppPort ≠ appPort) : proxyPortOf mappings appPort = 0 := by
  unfold proxyPortOf
  have : (mappings.filter fun mapping => mapping.AppPort = appPort) = [] := by
    rw [List.filter_eq_nil_iff]
    intro x hx
    simpa using h x hx
  rw [this]
  rfl

/-- C6: for every sandbox info whose ports are port numbers (container ports
1..65535, host ports below 65536) with pairwise distinct container ports, and
every list of proxy mappings, portMappingFromContainerInfo returns, up to
order, exactly one PortMapping for each mapped container port that is not the
proxy port of a mapping.  Its HostPort is the mapped host port, its
ContainerTLSProxyPort the proxy port the mappings assign to the port and its
HostTLSProxyPort the host port the sandbox maps that proxy port to (0 if it
maps none); both are 0 for a port without proxy mapping.  No returned entry
has a ContainerPort that is a proxy port. -/
theorem C6_port_mappings (info : ContainerInfo) (mappings : List ProxyPortMapping)
    (hd : (info.MappedPorts.map fun portMapping => portMapping.ContainerPort).Nodup)
    (hports : ∀ portMapping ∈ info.MappedPorts,
      1 ≤ portMapping.ContainerPort ∧ portMapping.ContainerPort < 2 ^ 16 ∧
        portMapping.HostPort < 2 ^ 16) :
    (∀ pm, pm ∈ portMappingFromContainerInfo info mappings ↔
      ∃ portMapping ∈ info.MappedPorts,
        (∀ mapping ∈ mappings, mapping.ProxyPort ≠ portMapping.ContainerPort) ∧
        pm =
          { HostPort := portMapping.HostPort
            ContainerPort := portMapping.ContainerPort
            ContainerTLSProxyPort := proxyPortOf mappings portMapping.ContainerPort
            HostTLSProxyPort :=
              mappedHostPortOf info.MappedPorts
                (proxyPortOf mappings portMapping.ContainerPort) }) ∧
    ((portMappingFromContainerInfo info mappings).map fun pm => pm.ContainerPort).Perm
      ((info.MappedPorts.map fun portMapping => portMapping.ContainerPort).filter fun port =>
        decide (∀ mapping ∈ mappings, mapping.ProxyPort ≠ port)) ∧
    (∀ pm ∈ portMappingFromContainerInfo info mappings,
      (∀ mapping ∈ mappings, mapping.AppPort ≠ pm.ContainerPort) →
        pm.ContainerTLSProxyPort = 0 ∧ pm.HostTLSProxyPort = 0) ∧
    (∀ pm ∈ portMappingFromContainerInfo info mappings,
      ∀ mapping ∈ mappings, mapping.ProxyPort ≠ pm.ContainerPort) := by
  have hlt : ∀ portMapping ∈ info.MappedPorts,
      portMapping.ContainerPort < 2 ^ 16 ∧ portMapping.HostPort < 2 ^ 16 :=
    fun x hx => ⟨(hports x hx).2.1, (hports x hx).2.2⟩
  have hmap : (info.MappedPorts.map fun portMapping =>
      uint16OfUint32 portMapping.ContainerPort)
        = info.MappedPorts.map fun portMapping => portMapping.ContainerPort :=
    List.map_congr_left fun x hx => uint16OfUint32_of_lt _ (hlt x hx).1
  obtain ⟨hmem, hnodup, hproxy⟩ :=
    portMappingFromContainerInfo_uint16 info mappings (by rw [hmap]; exact hd)
  have hmem2 : ∀ pm, pm ∈ portMappingFromContainerInfo info mappings ↔
      ∃ portMapping ∈ info.MappedPorts,
        (∀ mapping ∈ mappings, mapping.ProxyPort ≠ portMapping.ContainerPort) ∧
        pm =
          { HostPort := portMapping.HostPort
            ContainerPort := portMapping.ContainerPort
            ContainerTLSProxyPort := proxyPortOf mappings portMapping.ContainerPort
            HostTLSProxyPort :=
              mappedHostPortOf info.MappedPorts
                (proxyPortOf mappings portMapping.ContainerPort) } := by
    intro pm
    rw [hmem pm]
    constructor
    · rintro ⟨gp, hgp, hnp, rfl⟩
      refine ⟨gp, hgp, ?_, ?_⟩
      · simpa [uint16OfUint32_of_lt _ (hlt gp hgp).1] using hnp
      · simp [uint16OfUint32_of_lt _ (hlt gp hgp).1, uint16OfUint32_of_lt _ (hlt gp hgp).2,
          hostPortOf_of_port_numbers _ hd hlt]
    · rintro ⟨gp, hgp, hnp, rfl⟩
      refine ⟨gp, hgp, ?_, ?_⟩
      · simpa [uint16OfUint32_of_lt _ (hlt gp hgp).1] using hnp
      · simp [uint16OfUint32_of_lt _ (hlt gp hgp).1, uint16OfUint32_of_lt _ (hlt gp hgp).2,
          hostPortOf_of_port_numbers _ hd hlt]
  refine ⟨hmem2, ?_, ?_, hproxy⟩
  · rw [List.perm_ext_iff_of_nodup hnodup (hd.filter _)]
    intro a
    simp only [List.mem_map, List.mem_filter, decide_eq_true_eq]
    constructor
    · rintro ⟨pm, hpm, rfl⟩
      obtain ⟨gp, hgp, hnp, rfl⟩ := (hmem2 pm).1 hpm
      exact ⟨⟨gp, hgp, rfl⟩, hnp⟩
    · rintro ⟨⟨gp, hgp, rfl⟩, hnp⟩
      exact ⟨_, (hmem2 _).2 ⟨gp, hgp, hnp, rfl⟩, rfl⟩
  · intro pm hpm hno
    obtain ⟨gp, hgp, hnp, rfl⟩ := (hmem2 pm).1 hpm
    have h0 := proxyPortOf_of_no_mapping mappings gp.ContainerPort hno
    refine ⟨h0, ?_⟩
    show mappedHostPortOf info.MappedPorts (proxyPortOf mappings gp.ContainerPort) = 0
    rw [h0]
    apply mappedHostPortOf_of_not_mapped
    intro x hx
    have := (hports x hx).1
    omega


/-- Witness for C6 (the port mapping scenario of the spec): with the mapping
8080 → 61001 and the sandbox ports 8080 → 32001, 61001 → 32002 the result is
the one entry {32001, 8080, 61001, 32002}. -/
theorem C6_port_mappings_witness :
    (sampleContainerInfo.MappedPorts.map fun portMapping => portMapping.ContainerPort).Nodup ∧
    (∀ portMapping ∈ sampleContainerInfo.MappedPorts,
      1 ≤ portMapping.ContainerPort ∧ portMapping.ContainerPort < 2 ^ 16 ∧
        portMapping.HostPort < 2 ^ 16) ∧
    portMappingFromContainerInfo sampleContainerInfo [{ AppPort := 8080, ProxyPort := 61001 }]
      = [{ HostPort := 32001, ContainerPort := 8080, ContainerTLSProxyPort := 61001,
           HostTLSProxyPort := 32002 }] ∧
    ((portMappingFromContainerInfo sampleContainerInfo
        [{ AppPort := 8080, ProxyPort := 61001 }]).map fun pm => pm.ContainerPort).Perm
      ((sampleContainerInfo.MappedPorts.map fun portMapping =>
          portMapping.ContainerPort).filter fun port =>
        decide (∀ mapping ∈ [({ AppPort := 8080, ProxyPort := 61001 } : ProxyPortMapping)],
          mapping.ProxyPort ≠ port)) ∧
    ∀ pm ∈ portMappingFromContainerInfo sampleContainerInfo
        [{ AppPort := 8080, ProxyPort := 61001 }],
      ∀ mapping ∈ [({ AppPort := 8080, ProxyPort := 61001 } : ProxyPortMapping)],
        mapping.ProxyPort ≠ pm.ContainerPort :=
  ⟨by decide, by decide, by decide,
   (C6_port_mappings sampleContainerInfo [{ AppPort := 8080, ProxyPort := 61001 }]
      (by decide) (by decide)).2.1,
   (C6_port_mappings sampleContainerInfo [{ AppPort := 8080, ProxyPort := 61001 }]
      (by decide) (by decide)).2.2.2⟩

/-- Outside the port numbers the `uint16` reading shows: with the sandbox
ports 0 → 5000, 8080 → 32001 and 73616 → 40000 (73616 = 8080 + 65536) and no
proxy mapping the result has two entries, the entry of port 8080 carries the
host port of port 73616, and both carry the host port of container port 0 as
HostTLSProxyPort. -/
theorem portMappingFromContainerInfo_outside_port_numbers :
    portMappingFromContainerInfo sampleOddContainerInfo []
      = [{ HostPort := 5000, ContainerPort := 0, ContainerTLSProxyPort := 0,
           HostTLSProxyPort := 5000 },
         { HostPort := 40000, ContainerPort := 8080, ContainerTLSProxyPort := 0,
           HostTLSProxyPort := 5000 }] := by
  decide

/-! ## Limits of the sandbox spec (C7, C8) -/

theorem floorLog2Aux_spec (fuel n : Nat) (h1 : 1 ≤ n) (hf : n ≤ fuel) :
    2 ^ floorLog2Aux fuel n ≤ n ∧ n < 2 ^ (floorLog2Aux fuel n + 1) := by
  induction fuel generalizing n with
  | zero => omega
  | succ fuel ih =>
    unfold floorLog2Aux
    by_cases h2 : n < 2
    · have : n = 1 := by omega
      subst this
      simp
    · simp only [h2, if_false]
      have hn : 1 ≤ n / 2 := by omega
      have hf2 : n / 2 ≤ fuel := by omega
      obtain ⟨ha, hb⟩ := ih (n / 2) hn hf2
      constructor
      · rw [pow_succ]
        omega
      · rw [pow_succ]
        omega

theorem floorLog2_spec (n : Nat) (h1 : 1 ≤ n) :
    2 ^ floorLog2 n ≤ n ∧ n < 2 ^ (floorLog2 n + 1) :=
  floorLog2Aux_spec n n h1 (le_refl n)

theorem roundHalfEven_mul (q d : Nat) (hd : 0 < d) : roundHalfEven (q * d) d = q := by
  unfold roundHalfEven
  simp [Nat.mul_div_cancel _ hd, Nat.mul_mod_left, hd]

theorem roundHalfEven_near (n d : Nat) (hd : 0 < d) :
    2 * (roundHalfEven n d * d) ≤ 2 * n + d ∧ 2 * n ≤ 2 * (roundHalfEven n d * d) + d := by
  have hdiv := Nat.div_add_mod n d
  have hmod := Nat.mod_lt n hd
  have hmul : n / d * d = d * (n / d) := Nat.mul_comm _ _
  unfold roundHalfEven
  simp only
  split_ifs with h1 h2 h3
  · constructor <;> omega
  · rw [Nat.add_mul]
    constructor <;> omega
  · constructor <;> omega
  · rw [Nat.add_mul]
    constructor <;> omega


theorem scale_bounds (n d K J A U D : Nat) (hK : K ≤ n) (hn : n < 2 * K) (hJ : J ≤ d)
    (hd : d < 2 * J) (hUK : U * K = D * A)
    (hA : (d * K ≤ n * J ∧ A = 2 ^ 52 * J) ∨ (n * J < d * K ∧ A = 2 ^ 53 * J))
    (hKpos : 0 < K) (hDpos : 0 < D) :
    d * D * 2 ^ 52 ≤ n * U ∧ n * U < d * D * 2 ^ 53 := by
  have e1 : n * U * K = n * (D * A) := by rw [Nat.mul_assoc, hUK]
  constructor
  · apply Nat.le_of_mul_le_mul_right (c := K) _ hKpos
    rw [e1]
    rcases hA with ⟨h, rfl⟩ | ⟨h, rfl⟩
    · have := Nat.mul_le_mul_left (D * 2 ^ 52) h
      nlinarith
    · have h2 : d * K ≤ 2 * (n * J) := by nlinarith
      have := Nat.mul_le_mul_left (D * 2 ^ 52) h2
      nlinarith
  · apply Nat.lt_of_mul_lt_mul_right (a := K)
    rw [e1]
    rcases hA with ⟨h, rfl⟩ | ⟨h, rfl⟩
    · have h2 : n * J < 2 * (d * K) := by nlinarith
      have := Nat.mul_lt_mul_of_pos_left h2 (show 0 < D * 2 ^ 52 by positivity)
      nlinarith
    · have := Nat.mul_lt_mul_of_pos_left h (show 0 < D * 2 ^ 53 by positivity)
      nlinarith

theorem float64Round_spec (n d : Nat) (hn : 0 < n) (hd : 0 < d) :
    ∃ up down,
      float64Round n d
        = ⟨roundHalfEven (n * 2 ^ up) (d * 2 ^ down) * 2 ^ down, 2 ^ up⟩ ∧
      (up = 0 ∨ down = 0) ∧
      d * 2 ^ down * 2 ^ 52 ≤ n * 2 ^ up ∧ n * 2 ^ up < d * 2 ^ down * 2 ^ 53 := by
  obtain ⟨hk1, hk2⟩ := floorLog2_spec n hn
  obtain ⟨hj1, hj2⟩ := floorLog2_spec d hd
  rw [pow_succ] at hk2 hj2
  refine ⟨52 + floorLog2 d + (if d * 2 ^ floorLog2 n ≤ n * 2 ^ floorLog2 d then 0 else 1)
      - floorLog2 n,
    floorLog2 n
      - (52 + floorLog2 d + (if d * 2 ^ floorLog2 n ≤ n * 2 ^ floorLog2 d then 0 else 1)),
    ?_, ?_, ?_⟩
  · unfold float64Round
    simp [Nat.pos_iff_ne_zero.1 hn]
  · omega
  · apply scale_bounds n d (2 ^ floorLog2 n) (2 ^ floorLog2 d)
      (2 ^ (52 + floorLog2 d + (if d * 2 ^ floorLog2 n ≤ n * 2 ^ floorLog2 d then 0 else 1)))
    · exact hk1
    · omega
    · exact hj1
    · omega
    · rw [← pow_add, ← pow_add]
      congr 1
      omega
    · by_cases h : d * 2 ^ floorLog2 n ≤ n * 2 ^ floorLog2 d
      · left
        refine ⟨h, ?_⟩
        simp [h, pow_add]
      · right
        refine ⟨by omega, ?_⟩
        simp only [h, if_false]
        rw [show 52 + floorLog2 d + 1 = 53 + floorLog2 d by omega, pow_add]
    · positivity
    · positivity

theorem float64Round_zero (d : Nat) : float64Round 0 d = ⟨0, 1⟩ := by
  simp [float64Round]

/-- A fraction that stands for a positive integer below 2^53 is rounded to
that integer. -/
theorem float64Round_exact (x c : Nat) (hx : 0 < x) (hx2 : x < 2 ^ 53) (hc : 0 < c) :
    ∃ u, float64Round (x * c) c = ⟨x * 2 ^ u, 2 ^ u⟩ := by
  obtain ⟨up, down, heq, hzero, hlo, -⟩ := float64Round_spec (x * c) c (by positivity) hc
  have hdown : down = 0 := by
    by_contra hne
    have hup : up = 0 := by omega
    subst hup
    have h2 : 2 ≤ 2 ^ down := by
      calc 2 = 2 ^ 1 := by norm_num
        _ ≤ 2 ^ down := Nat.pow_le_pow_right (by norm_num) (by omega)
    have h3 : c * (2 ^ down * 2 ^ 52) ≤ c * x := by
      calc c * (2 ^ down * 2 ^ 52) = c * 2 ^ down * 2 ^ 52 := by ring
        _ ≤ x * c * 2 ^ 0 := hlo
        _ = c * x := by ring
    have h4 := Nat.le_of_mul_le_mul_left h3 hc
    omega
  subst hdown
  refine ⟨up, ?_⟩
  rw [heq]
  have : x * c * 2 ^ up = x * 2 ^ up * (c * 2 ^ 0) := by ring
  rw [this, roundHalfEven_mul _ _ (by positivity)]
  simp

/-- The integer part of the `float64` quotient of a positive integer below
2^53 by 100 is the integer quotient. -/
theorem float64Round_div_hundred (x c : Nat) (hx : 0 < x) (hx2 : x < 2 ^ 53) (hc : 0 < c) :
    (float64Round (x * c) (100 * c)).num / (float64Round (x * c) (100 * c)).den = x / 100 := by
  obtain ⟨up, down, heq, hzero, hlo, -⟩ :=
    float64Round_spec (x * c) (100 * c) (by positivity) (by positivity)
  have hlo2 : 100 * (2 ^ down * 2 ^ 52) ≤ x * 2 ^ up := by
    have h3 : c * (100 * (2 ^ down * 2 ^ 52)) ≤ c * (x * 2 ^ up) := by
      calc c * (100 * (2 ^ down * 2 ^ 52)) = 100 * c * 2 ^ down * 2 ^ 52 := by ring
        _ ≤ x * c * 2 ^ up := hlo
        _ = c * (x * 2 ^ up) := by ring
    exact Nat.le_of_mul_le_mul_left h3 hc
  have hdown : down = 0 := by
    by_contra hne
    have hup : up = 0 := by omega
    subst hup
    have h2 : 1 ≤ 2 ^ down := Nat.one_le_two_pow
    have : 100 * (1 * 2 ^ 52) ≤ 100 * (2 ^ down * 2 ^ 52) := by
      apply Nat.mul_le_mul_left
      exact Nat.mul_le_mul_right _ h2
    omega
  subst hdown
  have hP : 50 < 2 ^ up := by
    by_contra hle
    have : x * 2 ^ up ≤ x * 50 := Nat.mul_le_mul_left _ (by omega)
    omega
  rw [heq]
  simp only [pow_zero, Nat.mul_one]
  obtain ⟨hn1, hn2⟩ := roundHalfEven_near (x * c * 2 ^ up) (100 * c) (by positivity)
  generalize roundHalfEven (x * c * 2 ^ up) (100 * c) = m at hn1 hn2
  generalize 2 ^ up = P at hP hn1 hn2 hlo2
  have h1 : c * (200 * m) ≤ c * (2 * (x * P) + 100) := by
    calc c * (200 * m) = 2 * (m * (100 * c)) := by ring
      _ ≤ 2 * (x * c * P) + 100 * c := hn1
      _ = c * (2 * (x * P) + 100) := by ring
  have h2 : c * (2 * (x * P)) ≤ c * (200 * m + 100) := by
    calc c * (2 * (x * P)) = 2 * (x * c * P) := by ring
      _ ≤ 2 * (m * (100 * c)) + 100 * c := hn2
      _ = c * (200 * m + 100) := by ring
  have h3 := Nat.le_of_mul_le_mul_left h1 hc
  have h4 := Nat.le_of_mul_le_mul_left h2 hc
  have hx3 : x = 100 * (x / 100) + x % 100 := (Nat.div_add_mod x 100).symm
  have hmod : x % 100 < 100 := Nat.mod_lt _ (by norm_num)
  have hxP : x * P = 100 * (x / 100 * P) + x % 100 * P := by
    conv_lhs => rw [hx3]
    ring
  have htP : x % 100 * P ≤ 99 * P := Nat.mul_le_mul_right _ (by omega)
  apply Nat.div_eq_of_lt_le
  · omega
  · rw [Nat.succ_mul]
    omega

/-- The CPU share computation of `createGardenContainer` is exact while the
product of its operands stays below 2^53. -/
theorem cpuShares_exact (outOfRange maxCPUShares cpuWeight : Nat)
    (h : maxCPUShares * cpuWeight < 2 ^ 53) :
    uint64OfFloat64 outOfRange
        (float64Div (float64Mul (float64OfUint maxCPUShares) (float64OfUint cpuWeight)) ⟨100, 1⟩)
      = maxCPUShares * cpuWeight / 100 := by
  rcases Nat.eq_zero_or_pos maxCPUShares with hm | hm
  · subst hm
    simp [float64OfUint, float64Mul, float64Div, float64Round_zero, uint64OfFloat64]
  rcases Nat.eq_zero_or_pos cpuWeight with hw | hw
  · subst hw
    simp [float64OfUint, float64Mul, float64Div, float64Round_zero, uint64OfFloat64]
  have hm2 : maxCPUShares < 2 ^ 53 := by nlinarith
  have hw2 : cpuWeight < 2 ^ 53 := by nlinarith
  obtain ⟨u, hu⟩ := float64Round_exact maxCPUShares 1 hm hm2 (by norm_num)
  obtain ⟨v, hv⟩ := float64Round_exact cpuWeight 1 hw hw2 (by norm_num)
  rw [Nat.mul_one] at hu hv
  obtain ⟨s, hs⟩ := float64Round_exact (maxCPUShares * cpuWeight) (2 ^ u * 2 ^ v)
    (by positivity) h (by positivity)
  have hmul : float64Mul (float64OfUint maxCPUShares) (float64OfUint cpuWeight)
      = ⟨maxCPUShares * cpuWeight * 2 ^ s, 2 ^ s⟩ := by
    unfold float64Mul float64OfUint
    rw [hu, hv]
    simp only
    rw [show maxCPUShares * 2 ^ u * (cpuWeight * 2 ^ v)
      = maxCPUShares * cpuWeight * (2 ^ u * 2 ^ v) by ring, hs]
  have hdiv := float64Round_div_hundred (maxCPUShares * cpuWeight) (2 ^ s) (by positivity) h
    (by positivity)
  unfold uint64OfFloat64 float64Div
  rw [hmul]
  simp only [Nat.mul_one]
  rw [show 2 ^ s * 100 = 100 * 2 ^ s by ring, hdiv]
  have : maxCPUShares * cpuWeight / 100 < 2 ^ 64 := by omega
  rw [if_pos this]

theorem uint64_of_megabytes (mb : Int) :
    uint64OfInt (wrapInt (wrapInt (mb * 1024) * 1024)) = ((mb * 2 ^ 20) % 2 ^ 64).toNat := by
  unfold uint64OfInt wrapInt
  omega

@[simp] theorem gardenCreateSpecs_nil : gardenCreateSpecs [] = [] := rfl

@[simp] theorem gardenCreateSpecs_cons (c : Call) (cs : List Call) :
    gardenCreateSpecs (c :: cs)
      = (match c with
          | .GardenCreate spec => [spec]
          | _ => []) ++ gardenCreateSpecs cs := by
  cases c <;> simp [gardenCreateSpecs, List.filterMap_cons]

@[simp] theorem gardenCreateSpecs_append (a b : List Call) :
    gardenCreateSpecs (a ++ b) = gardenCreateSpecs a ++ gardenCreateSpecs b := by
  simp [gardenCreateSpecs, List.filterMap_append]

theorem gardenCreateSpecs_destroyContainer (w : World) (n : storeNode) :
    gardenCreateSpecs (n.destroyContainer w).1 = [] := by
  unfold storeNode.destroyContainer
  split
  · rfl
  · rfl
  · split <;> rfl

theorem specLimits_of_gardenCreate (w : World) (n : storeNode) (info : Container) :
    ∀ spec ∈ gardenCreateSpecs (n.createGardenContainer w info).1,
      spec.Limits = specLimits w n.config info := by
  have hd := gardenCreateSpecs_destroyContainer w n
  cases h1 : w.convertEgressToNetOut info.RunInfo.EgressRules <;>
  cases h2 : w.GardenCreate <;>
  cases h3 : w.GardenContainerInfo 0 <;>
  cases h4 : w.GardenContainerInfo 1 <;>
  simp [storeNode.createGardenContainer, createContainer, fetchIPs,
    Container.TransistionToCreate, h1, h2, h3, h4, hd, specLimits]
  split <;> simp

/-- The calls of a log that neither mount nor unmount a volume and neither
download nor release cached dependencies. -/
theorem projections_of_other (calls : List Call)
    (h : ∀ c ∈ calls, c.mountOf = none ∧ c.unmountOf = none ∧ c.releaseOf = none ∧
      c.downloadOf = none) :
    mountsOf calls = [] ∧ unmountsOf calls = [] ∧ releasesOf calls = [] ∧
      downloadsOf calls = [] := by
  simp only [mountsOf, unmountsOf, releasesOf, downloadsOf, List.filterMap_eq_nil_iff]
  exact ⟨fun c hc => (h c hc).1, fun c hc => (h c hc).2.1, fun c hc => (h c hc).2.2.1,
    fun c hc => (h c hc).2.2.2⟩

theorem other_destroyContainer (w : World) (n : storeNode) :
    ∀ c ∈ (n.destroyContainer w).1, c.mountOf = none ∧ c.unmountOf = none ∧
      c.releaseOf = none ∧ c.downloadOf = none := by
  unfold storeNode.destroyContainer
  split
  · simp [Call.mountOf, Call.unmountOf, Call.releaseOf, Call.downloadOf]
  · simp [Call.mountOf, Call.unmountOf, Call.releaseOf, Call.downloadOf]
  · split <;> simp [Call.mountOf, Call.unmountOf, Call.releaseOf, Call.downloadOf]

theorem other_createGardenContainer (w : World) (n : storeNode) (info : Container) :
    ∀ c ∈ (n.createGardenContainer w info).1, c.mountOf = none ∧ c.unmountOf = none ∧
      c.releaseOf = none ∧ c.downloadOf = none := by
  have hd := other_destroyContainer w n
  cases h1 : w.convertEgressToNetOut info.RunInfo.EgressRules <;>
  cases h2 : w.GardenCreate <;>
  cases h3 : w.GardenContainerInfo 0 <;>
  cases h4 : w.GardenContainerInfo 1 <;>
  simp [storeNode.createGardenContainer, createContainer, fetchIPs,
    Container.TransistionToCreate, h1, h2, h3, h4, Call.mountOf, Call.unmountOf,
    Call.releaseOf, Call.downloadOf]
  · exact hd
  · split <;> simp [Call.mountOf, Call.unmountOf, Call.releaseOf, Call.downloadOf]

theorem projections_append (a b : List Call) :
    mountsOf (a ++ b) = mountsOf a ++ mountsOf b ∧
    unmountsOf (a ++ b) = unmountsOf a ++ unmountsOf b ∧
    releasesOf (a ++ b) = releasesOf a ++ releasesOf b ∧
    downloadsOf (a ++ b) = downloadsOf a ++ downloadsOf b := by
  simp [mountsOf, unmountsOf, releasesOf, downloadsOf, List.filterMap_append]

/-- The volumes `mountVolumes` mounts when it succeeds are the volumes of the
container, in order, and it makes no other call. -/
theorem mountVolumesFrom_ok (w : World) (vs : List VolumeMount) (i : Nat) (calls : List Call)
    (gardenMounts : List BindMount) (h : mountVolumesFrom w i vs = (calls, .ok gardenMounts)) :
    mountsOf calls = vs.map (fun volume => (volume.Driver, volume.VolumeId)) ∧
    unmountsOf calls = [] ∧ releasesOf calls = [] ∧ downloadsOf calls = [] := by
  induction vs generalizing i calls gardenMounts with
  | nil =>
    simp [mountVolumesFrom] at h
    obtain ⟨rfl, -⟩ := h
    simp [mountsOf, unmountsOf, releasesOf, downloadsOf]
  | cons v rest ih =>
    unfold mountVolumesFrom at h
    split at h
    · simp at h
    · split at h
      · simp at h
      · rename_i hrest
        simp only [Prod.mk.injEq, Except.ok.injEq] at h
        obtain ⟨rfl, -⟩ := h
        obtain ⟨h1, h2, h3, h4⟩ := ih _ _ _ hrest
        simp [mountsOf, unmountsOf, releasesOf, downloadsOf, List.filterMap_cons,
          Call.mountOf, Call.unmountOf, Call.releaseOf, Call.downloadOf] at h1 h2 h3 h4 ⊢
        exact ⟨h1, h2, h3, h4⟩

/-- The volumes the loop of Destroy unmounts are the volumes it is given, in
order, and it makes no other call. -/
theorem unmountVolumesFrom_calls (w : World) (vs : List VolumeMount) (i : Nat) :
    unmountsOf (unmountVolumesFrom w i vs).1
        = vs.map (fun volume => (volume.Driver, volume.VolumeId)) ∧
    mountsOf (unmountVolumesFrom w i vs).1 = [] ∧
    releasesOf (unmountVolumesFrom w i vs).1 = [] ∧
    downloadsOf (unmountVolumesFrom w i vs).1 = [] := by
  induction vs generalizing i with
  | nil => simp [unmountVolumesFrom, mountsOf, unmountsOf, releasesOf, downloadsOf]
  | cons v rest ih =>
    obtain ⟨h1, h2, h3, h4⟩ := ih (i + 1)
    simp [unmountVolumesFrom, mountsOf, unmountsOf, releasesOf, downloadsOf,
      List.filterMap_cons, Call.mountOf, Call.unmountOf, Call.releaseOf,
      Call.downloadOf] at h1 h2 h3 h4 ⊢
    exact ⟨h1, h2, h3, h4⟩

/-- What `createGardenContainer` leaves behind the info pointer when it
succeeds. -/
theorem createGardenContainer_ok (w : World) (n : storeNode) (info : Container)
    (calls : List Call) (gardenContainer : GardenContainer) (created : Container)
    (h : n.createGardenContainer w info = (calls, .ok (gardenContainer, created))) :
    created.State = .Created ∧
    created.MemoryLimit = (specLimits w n.config info).MemoryLimitInBytes ∧
    created.DiskLimit = (specLimits w n.config info).Disk.ByteHard ∧
    created.RunInfo.VolumeMounts = info.RunInfo.VolumeMounts ∧
    created.RunResult = info.RunResult ∧
    ∃ spec, gardenCreateSpecs calls = [spec] ∧ spec.Limits = specLimits w n.config info := by
  revert h
  cases h1 : w.convertEgressToNetOut info.RunInfo.EgressRules <;>
  cases h2 : w.GardenCreate <;>
  cases h3 : w.GardenContainerInfo 0 <;>
  cases h4 : w.GardenContainerInfo 1 <;>
  simp [storeNode.createGardenContainer, createContainer, fetchIPs,
    Container.TransistionToCreate, h1, h2, h3, h4]
  split
  · simp
  · rename_i heq
    split_ifs at heq with hv
    · simp only [Prod.mk.injEq] at heq
      obtain ⟨rfl, -⟩ := heq
      simp only [Prod.mk.injEq, Except.ok.injEq, and_imp]
      rintro rfl - rfl
      simp [specLimits]
    · simp at heq

theorem gardenCreateSpecs_mountVolumesFrom (w : World) (vs : List VolumeMount) (i : Nat) :
    gardenCreateSpecs (mountVolumesFrom w i vs).1 = [] := by
  induction vs generalizing i with
  | nil => rfl
  | cons v rest ih =>
    unfold mountVolumesFrom
    have := ih (i + 1)
    split
    · simp
    · split <;> simp_all

/-- What a Create that returns no error leaves behind: the node is Created
with the limits of the spec recorded, the volumes of the container unchanged
and the cache keys of the download stored; its log holds one download, one
Mount for each volume and one sandbox spec. -/
theorem Create_ok (w : World) (n : storeNode) (h : (n.Create w).2.2 = none) :
    (n.Create w).1.info.State = .Created ∧
    (n.Create w).1.info.MemoryLimit = (specLimits w n.config n.info).MemoryLimitInBytes ∧
    (n.Create w).1.info.DiskLimit = (specLimits w n.config n.info).Disk.ByteHard ∧
    (n.Create w).1.info.RunInfo.VolumeMounts = n.info.RunInfo.VolumeMounts ∧
    (∃ gardenBindMounts,
      w.DownloadCachedDependencies
        = .ok (gardenBindMounts, (n.Create w).1.bindMountCacheKeys)) ∧
    (n.Create w).1.process = n.process ∧
    mountsOf (n.Create w).2.1 = volumesOf n.info ∧
    downloadsOf (n.Create w).2.1 = [n.info.RunInfo.CachedDependencies] ∧
    unmountsOf (n.Create w).2.1 = [] ∧
    releasesOf (n.Create w).2.1 = [] ∧
    ∃ spec, gardenCreateSpecs (n.Create w).2.1 = [spec] ∧
      spec.Limits = specLimits w n.config n.info := by
  by_cases hi : n.info.State = .Initializing
  swap
  · rw [Create_of_not_initializing w n hi] at h
    simp at h
  have hv : n.info.ValidateTransitionTo .Created = true := by
    simp [Container.ValidateTransitionTo, hi]
  revert h
  simp only [storeNode.Create, hv, Bool.not_true, Bool.false_eq_true, if_false,
    storeNode.mountVolumes]
  · split
    · simp
    · rename_i hdl
      split
      · simp [storeNode.complete]
      · rename_i hm
        have hmo := mountVolumesFrom_ok _ _ _ _ _ hm
        have hms := congrArg (fun r => gardenCreateSpecs r.1) hm
        simp only [gardenCreateSpecs_mountVolumesFrom] at hms
        split
        · simp
        · split
          · simp [storeNode.complete]
          · split
            · simp [storeNode.complete]
            · rename_i hg
              have hok := createGardenContainer_ok _ _ _ _ _ _ hg
              have hq := congrArg
                (fun r : List Call × Except GoError (GardenContainer × Container) =>
                  ∀ c ∈ r.1, c.mountOf = none ∧ c.unmountOf = none ∧ c.releaseOf = none ∧
                    c.downloadOf = none) hg
              have hoth := projections_of_other _ (hq.mp (other_createGardenContainer w _ _))
              intro _
              simp only [projections_append, hmo, hoth]
              obtain ⟨hs1, hs2, hs3, hs4, -, spec, hs5, hs6⟩ := hok
              simp [hs1, hs2, hs3, hs4, hs5, hs6, ← hms, hdl, specLimits, volumesOf, mountsOf,
                unmountsOf, releasesOf, downloadsOf, Call.mountOf, Call.unmountOf,
                Call.releaseOf, Call.downloadOf]

/-- C7, as the code has it: the CPU limit `createGardenContainer` places in
the sandbox spec is computed in `float64`, and equals the exact integer
floor(MaxCPUShares * CPUWeight / 100) whenever the product
MaxCPUShares * CPUWeight is below 2^53; that covers every CPUWeight in 1..100
with MaxCPUShares below 2^46. -/
theorem C7_cpu_limit_in_shares (w : World) (n : storeNode) (info : Container)
    (h : n.config.MaxCPUShares * info.CPUWeight < 2 ^ 53) :
    ∀ spec ∈ gardenCreateSpecs (n.createGardenContainer w info).1,
      spec.Limits.CPULimitInShares = n.config.MaxCPUShares * info.CPUWeight / 100 := by
  intro spec hspec
  rw [specLimits_of_gardenCreate w n info spec hspec]
  exact cpuShares_exact _ _ _ h

/-- Witness for C7: MaxCPUShares 1024 and CPUWeight 50 give 512 shares. -/
theorem C7_cpu_limit_in_shares_witness :
    (gardenCreateSpecs
        ((sampleNode .Initializing).createGardenContainer sampleWorld
          (sampleContainer .Initializing)).1).length = 1 ∧
    ∀ spec ∈ gardenCreateSpecs
        ((sampleNode .Initializing).createGardenContainer sampleWorld
          (sampleContainer .Initializing)).1,
      spec.Limits.CPULimitInShares = 1024 * 50 / 100 :=
  ⟨by decide,
   C7_cpu_limit_in_shares sampleWorld (sampleNode .Initializing)
    (sampleContainer .Initializing) (by decide)⟩

set_option maxRecDepth 100000 in
/-- Counterexample to C7 as stated: with MaxCPUShares = 2^53 + 1 and
CPUWeight = 100 the spec carries 2^53 shares, and the exact floor is
2^53 + 1. -/
theorem C7_cpu_limit_in_shares_counterexample :
    (gardenCreateSpecs
        (sampleLargeSharesNode.createGardenContainer sampleWorld
          sampleFullWeightContainer).1).map (fun spec => spec.Limits.CPULimitInShares)
      = [2 ^ 53] ∧
    sampleLargeSharesNode.config.MaxCPUShares * sampleFullWeightContainer.CPUWeight / 100
      = 2 ^ 53 + 1 := by
  decide

/-- C8, as the code has it: the sandbox spec built by `createGardenContainer`
has memory LimitInBytes = MemoryMB * 2^20 and disk ByteHard = DiskMB * 2^20,
each reduced modulo 2^64, which is the value itself for 0 ≤ MemoryMB < 2^44
and 0 ≤ DiskMB < 2^44, with InodeHard the configured inode limit; and after a
successful Create the info of the node records as MemoryLimit and DiskLimit
the two byte values of the one spec Create handed to the sandbox
provider. -/
theorem C8_memory_and_disk_limits (w : World) (n : storeNode) :
    (∀ info, ∀ spec ∈ gardenCreateSpecs (n.createGardenContainer w info).1,
      spec.Limits.MemoryLimitInBytes = ((info.MemoryMB * 2 ^ 20) % 2 ^ 64).toNat ∧
      spec.Limits.Disk.ByteHard = ((info.DiskMB * 2 ^ 20) % 2 ^ 64).toNat ∧
      spec.Limits.Disk.InodeHard = n.config.INodeLimit ∧
      (0 ≤ info.MemoryMB → info.MemoryMB < 2 ^ 44 →
        (spec.Limits.MemoryLimitInBytes : Int) = info.MemoryMB * 2 ^ 20) ∧
      (0 ≤ info.DiskMB → info.DiskMB < 2 ^ 44 →
        (spec.Limits.Disk.ByteHard : Int) = info.DiskMB * 2 ^ 20)) ∧
    ((n.Create w).2.2 = none →
      (n.Create w).1.info.MemoryLimit = ((n.info.MemoryMB * 2 ^ 20) % 2 ^ 64).toNat ∧
      (n.Create w).1.info.DiskLimit = ((n.info.DiskMB * 2 ^ 20) % 2 ^ 64).toNat ∧
      ∃ spec, gardenCreateSpecs (n.Create w).2.1 = [spec] ∧
        (n.Create w).1.info.MemoryLimit = spec.Limits.MemoryLimitInBytes ∧
        (n.Create w).1.info.DiskLimit = spec.Limits.Disk.ByteHard ∧
        spec.Limits.Disk.InodeHard = n.config.INodeLimit) := by
  constructor
  · intro info spec hspec
    rw [specLimits_of_gardenCreate w n info spec hspec]
    simp only [specLimits, uint64_of_megabytes]
    refine ⟨trivial, trivial, trivial, ?_, ?_⟩
    · intro h0 h1
      omega
    · intro h0 h1
      omega
  · intro h
    obtain ⟨-, hm, hd, -, -, -, -, -, -, -, spec, hspec, hlim⟩ := Create_ok w n h
    refine ⟨?_, ?_, spec, hspec, ?_, ?_, ?_⟩
    · rw [hm]
      simp only [specLimits, uint64_of_megabytes]
    · rw [hd]
      simp only [specLimits, uint64_of_megabytes]
    · rw [hm, hlim]
    · rw [hd, hlim]
    · rw [hlim]
      rfl

/-- Witness for C8 (the values of the limit-container test): 1024 MB of memory
are 1024*1024*1024 bytes, 512 MB of disk are 512*1024*1024 bytes, and the
inode limit is 200000. -/
theorem C8_memory_and_disk_limits_witness :
    ((sampleNode .Initializing).Create sampleWorld).2.2 = none ∧
    ((sampleNode .Initializing).Create sampleWorld).1.info.MemoryLimit = 1024 * 1024 * 1024 ∧
    ((sampleNode .Initializing).Create sampleWorld).1.info.DiskLimit = 512 * 1024 * 1024 ∧
    ∃ spec, gardenCreateSpecs ((sampleNode .Initializing).Create sampleWorld).2.1 = [spec] ∧
      spec.Limits.MemoryLimitInBytes = 1024 * 1024 * 1024 ∧
      spec.Limits.Disk.ByteHard = 512 * 1024 * 1024 ∧
      spec.Limits.Disk.InodeHard = 200000 := by
  obtain ⟨hm, hd, spec, hspec, hsm, hsd, hin⟩ :=
    (C8_memory_and_disk_limits sampleWorld (sampleNode .Initializing)).2 rfl
  have e1 : (((sampleNode .Initializing).info.MemoryMB * 2 ^ 20) % 2 ^ 64).toNat
      = 1024 * 1024 * 1024 := by decide
  have e2 : (((sampleNode .Initializing).info.DiskMB * 2 ^ 20) % 2 ^ 64).toNat
      = 512 * 1024 * 1024 := by decide
  exact ⟨rfl, hm.trans e1, hd.trans e2, spec, hspec, hsm ▸ hm.trans e1, hsd ▸ hd.trans e2, hin⟩

/-- Counterexample to C8 as stated: for MemoryMB = DiskMB = 2^44, which are
non-negative, the spec carries the limits 0 and 0, and MemoryMB * 2^20 is
2^64. -/
theorem C8_memory_and_disk_limits_counterexample :
    0 ≤ sampleHugeContainer.MemoryMB ∧ 0 ≤ sampleHugeContainer.DiskMB ∧
    (gardenCreateSpecs
        ((sampleNode .Initializing).createGardenContainer sampleWorld
          sampleHugeContainer).1).map
      (fun spec => (spec.Limits.MemoryLimitInBytes, spec.Limits.Disk.ByteHard)) = [(0, 0)] ∧
    sampleHugeContainer.MemoryMB * 2 ^ 20 = 2 ^ 64 := by
  decide

/-! ## Failures of Create (C9) -/

/-- C9, as the code has it: on a node in state Initializing, a Create whose
cached-dependency download, volume mount or credential-directory creation
fails returns the underlying error and leaves the node Completed with
failed=true and the categorical reason of that step (a failed download is
followed by no Mount and no Unmount call).  A Create whose proxy bind-mount
lookup fails returns the underlying error as well, and there the info of the
node is left as it was, in state Initializing, and no Completion event is
emitted. -/
theorem C9_create_failures (w : World) (n : storeNode) (hi : n.info.State = .Initializing) :
    (∀ err, w.DownloadCachedDependencies = .error err →
      (n.Create w).2.2 = some err ∧
      (n.Create w).1.info.State = .Completed ∧
      (n.Create w).1.info.RunResult.Failed = true ∧
      (n.Create w).1.info.RunResult.FailureReason = "failed to download cached artifacts" ∧
      mountsOf (n.Create w).2.1 = [] ∧ unmountsOf (n.Create w).2.1 = []) ∧
    (∀ gardenBindMounts cacheKeys err,
      w.DownloadCachedDependencies = .ok (gardenBindMounts, cacheKeys) →
      (storeNode.mountVolumes w n.info).2 = .error err →
      (n.Create w).2.2 = some err ∧
      (n.Create w).1.info.State = .Completed ∧
      (n.Create w).1.info.RunResult.Failed = true ∧
      (n.Create w).1.info.RunResult.FailureReason = "failed to mount volume") ∧
    (∀ gardenBindMounts cacheKeys volumeMounts proxyMounts err,
      w.DownloadCachedDependencies = .ok (gardenBindMounts, cacheKeys) →
      (storeNode.mountVolumes w n.info).2 = .ok volumeMounts →
      w.ProxyBindMounts = .ok proxyMounts →
      w.CreateCredDir = .error err →
      (n.Create w).2.2 = some err ∧
      (n.Create w).1.info.State = .Completed ∧
      (n.Create w).1.info.RunResult.Failed = true ∧
      (n.Create w).1.info.RunResult.FailureReason
        = "failed to create credentials directory") ∧
    (∀ gardenBindMounts cacheKeys volumeMounts err,
      w.DownloadCachedDependencies = .ok (gardenBindMounts, cacheKeys) →
      (storeNode.mountVolumes w n.info).2 = .ok volumeMounts →
      w.ProxyBindMounts = .error err →
      (n.Create w).2.2 = some err ∧
      (n.Create w).1.info = n.info ∧
      (n.Create w).1.info.State = .Initializing ∧
      completions (n.Create w).2.1 = 0) := by
  have hv : n.info.ValidateTransitionTo .Created = true := by
    simp [Container.ValidateTransitionTo, hi]
  refine ⟨?_, ?_, ?_, ?_⟩
  · intro err hd
    simp [storeNode.Create, hv, hd, storeNode.complete, Container.TransitionToComplete,
      DownloadCachedDependenciesFailed, mountsOf, unmountsOf, Call.mountOf, Call.unmountOf]
  · intro gardenBindMounts cacheKeys err hd hm
    simp only [storeNode.mountVolumes] at hm
    rcases hmv : mountVolumesFrom w 0 n.info.RunInfo.VolumeMounts with ⟨c2, r⟩
    rw [hmv] at hm
    simp only at hm
    subst hm
    simp [storeNode.Create, hv, hd, hmv, storeNode.mountVolumes, storeNode.complete,
      Container.TransitionToComplete, VolmanMountFailed]
  · intro gardenBindMounts cacheKeys volumeMounts proxyMounts err hd hm hp hcd
    simp only [storeNode.mountVolumes] at hm
    rcases hmv : mountVolumesFrom w 0 n.info.RunInfo.VolumeMounts with ⟨c2, r⟩
    rw [hmv] at hm
    simp only at hm
    subst hm
    simp [storeNode.Create, hv, hd, hmv, hp, hcd, storeNode.mountVolumes, storeNode.complete,
      Container.TransitionToComplete, CredDirFailed]
  · intro gardenBindMounts cacheKeys volumeMounts err hd hm hp
    simp only [storeNode.mountVolumes] at hm
    rcases hmv : mountVolumesFrom w 0 n.info.RunInfo.VolumeMounts with ⟨c2, r⟩
    have hc2 := completions_mountVolumesFrom w n.info.RunInfo.VolumeMounts 0
    rw [hmv] at hm hc2
    simp only at hm hc2
    subst hm
    simp [storeNode.Create, hv, hd, hmv, hp, storeNode.mountVolumes, hi, hc2,
      Call.isCompletion]

/-- Witness for C9, the failing input: every collaborator succeeds but the
proxy manager, whose bind-mount lookup fails.  Create returns that error, and
the node is still Initializing, not failed, and no Completion event was
emitted. -/
theorem C9_create_failures_witness :
    ((sampleNode .Initializing).Create sampleProxyFailureWorld).2.2
      = some (.errorString "no proxy directory") ∧
    ((sampleNode .Initializing).Create sampleProxyFailureWorld).1.info
      = (sampleNode .Initializing).info ∧
    ((sampleNode .Initializing).Create sampleProxyFailureWorld).1.info.State
      = .Initializing ∧
    completions ((sampleNode .Initializing).Create sampleProxyFailureWorld).2.1 = 0 :=
  (C9_create_failures sampleProxyFailureWorld (sampleNode .Initializing) rfl).2.2.2
    [] ["key-1"]
    [{ SrcPath := "/var/vcap/data/vol-1", DstPath := "/data", Mode := 0, Origin := 0 }]
    (.errorString "no proxy directory") rfl rfl rfl

/-! ## Cleanup in Destroy (C10) -/

theorem projections_nil :
    mountsOf [] = [] ∧ unmountsOf [] = [] ∧ releasesOf [] = [] ∧ downloadsOf [] = [] :=
  ⟨rfl, rfl, rfl, rfl⟩

theorem projections_cons (c : Call) (cs : List Call) :
    mountsOf (c :: cs) = c.mountOf.toList ++ mountsOf cs ∧
    unmountsOf (c :: cs) = c.unmountOf.toList ++ unmountsOf cs ∧
    releasesOf (c :: cs) = c.releaseOf.toList ++ releasesOf cs ∧
    downloadsOf (c :: cs) = c.downloadOf.toList ++ downloadsOf cs := by
  refine ⟨?_, ?_, ?_, ?_⟩
  · cases h : c.mountOf <;> simp [mountsOf, List.filterMap_cons, h]
  · cases h : c.unmountOf <;> simp [unmountsOf, List.filterMap_cons, h]
  · cases h : c.releaseOf <;> simp [releasesOf, List.filterMap_cons, h]
  · cases h : c.downloadOf <;> simp [downloadsOf, List.filterMap_cons, h]

theorem destroyContainer_result (w : World) (n m : storeNode) :
    (n.destroyContainer w).2 = (m.destroyContainer w).2 := by
  unfold storeNode.destroyContainer
  split
  · rfl
  · rfl
  · split <;> rfl

/-- The internal stop path keeps the cache keys and the volumes of the node,
and makes no call to the dependency manager or the volume manager. -/
theorem stop_keeps (n : storeNode) :
    n.stop.1.bindMountCacheKeys = n.bindMountCacheKeys ∧
    n.stop.1.info.RunInfo = n.info.RunInfo ∧
    ∀ c ∈ n.stop.2.1, c.mountOf = none ∧ c.unmountOf = none ∧ c.releaseOf = none ∧
      c.downloadOf = none := by
  unfold storeNode.stop
  cases hp : n.process <;> by_cases hs : n.info.RunResult.Stopped = true <;>
    simp [hs, storeNode.complete, Container.TransitionToComplete, storeNode.Info,
      Call.mountOf, Call.unmountOf, Call.releaseOf, Call.downloadOf]

/-- The calls of Destroy to the dependency manager and the volume manager:
one release of the cache keys of the node and one unmount for each of its
volumes, in order, when the sandbox destruction step returns no error, and
none at all when it returns one, which Destroy then returns. -/
theorem Destroy_cleanup (w : World) (n : storeNode) :
    ((n.destroyContainer w).2 = none →
      releasesOf (n.Destroy w).2.1 = [n.bindMountCacheKeys] ∧
      unmountsOf (n.Destroy w).2.1 = volumesOf n.info ∧
      mountsOf (n.Destroy w).2.1 = [] ∧
      downloadsOf (n.Destroy w).2.1 = []) ∧
    (∀ err, (n.destroyContainer w).2 = some err →
      (n.Destroy w).2.2 = some err ∧
      releasesOf (n.Destroy w).2.1 = [] ∧
      unmountsOf (n.Destroy w).2.1 = [] ∧
      mountsOf (n.Destroy w).2.1 = [] ∧
      downloadsOf (n.Destroy w).2.1 = []) := by
  have hr := stop_returns_nil n
  obtain ⟨hk1, hk2, hk3⟩ := stop_keeps n
  have hres := destroyContainer_result w n.stop.1 n
  have hoth := other_destroyContainer w n.stop.1
  have hum := unmountVolumesFrom_calls w n.stop.1.info.RunInfo.VolumeMounts 0
  unfold storeNode.Destroy
  rcases hstop : n.stop with ⟨n1, c1, r⟩
  rw [hstop] at hr hk1 hk2 hk3 hres hoth hum
  simp only at hr hk1 hk2 hk3 hres hoth hum
  subst hr
  obtain ⟨s1, s2, s3, s4⟩ := projections_of_other c1 hk3
  rcases hdc : n1.destroyContainer w with ⟨c4, e⟩
  rw [hdc] at hres hoth
  simp only at hres hoth
  obtain ⟨d1, d2, d3, d4⟩ := projections_of_other c4 hoth
  rw [hk2] at hum
  obtain ⟨u1, u2, u3, u4⟩ := hum
  rw [← hres]
  cases e with
  | none =>
    refine ⟨fun _ => ?_, fun err he => by simp at he⟩
    by_cases hp : n1.process.isSome <;>
      simp [hp, hdc, projections_append, projections_cons, projections_nil, s1, s2, s3, s4, d1,
        d2, d3, d4, u1, u2, u3, u4, hk1, hk2, volumesOf, Call.mountOf, Call.unmountOf,
        Call.releaseOf, Call.downloadOf]
  | some err0 =>
    refine ⟨fun he => by simp at he, fun err he => ?_⟩
    simp only [Option.some.injEq] at he
    subst he
    by_cases hp : n1.process.isSome <;>
      simp [hp, hdc, projections_append, projections_cons, projections_nil, s1, s2, s3, s4, d1,
        d2, d3, d4, Call.mountOf, Call.unmountOf, Call.releaseOf, Call.downloadOf]

/-- C10, as the code has it: after a Create that succeeded, whose log holds
one DownloadCachedDependencies call and one Mount for each volume of the
container, a Destroy whose sandbox destruction step returns no error (the
sandbox provider destroyed the container, did not find it, or was already
destroying it) makes one ReleaseCachedDependencies call, with the cache keys
of that download, and one Unmount for each Mount of Create, with the same
driver and volume id, in the same order.  A Destroy whose sandbox destruction
step returns an error returns that error and makes no ReleaseCachedDependencies
and no Unmount call. -/
theorem C10_release_and_unmount (w1 w2 : World) (n : storeNode)
    (h : (n.Create w1).2.2 = none) :
    downloadsOf (n.Create w1).2.1 = [n.info.RunInfo.CachedDependencies] ∧
    mountsOf (n.Create w1).2.1 = volumesOf n.info ∧
    (∃ gardenBindMounts,
      w1.DownloadCachedDependencies
        = .ok (gardenBindMounts, (n.Create w1).1.bindMountCacheKeys)) ∧
    (((n.Create w1).1.destroyContainer w2).2 = none →
      releasesOf ((n.Create w1).1.Destroy w2).2.1 = [(n.Create w1).1.bindMountCacheKeys] ∧
      (releasesOf ((n.Create w1).1.Destroy w2).2.1).length
        = (downloadsOf (n.Create w1).2.1).length ∧
      unmountsOf ((n.Create w1).1.Destroy w2).2.1 = mountsOf (n.Create w1).2.1) ∧
    (∀ err, ((n.Create w1).1.destroyContainer w2).2 = some err →
      ((n.Create w1).1.Destroy w2).2.2 = some err ∧
      releasesOf ((n.Create w1).1.Destroy w2).2.1 = [] ∧
      unmountsOf ((n.Create w1).1.Destroy w2).2.1 = []) := by
  obtain ⟨-, -, -, hvm, hkeys, -, hmounts, hdown, -, -, -⟩ := Create_ok w1 n h
  obtain ⟨hgood, hbad⟩ := Destroy_cleanup w2 (n.Create w1).1
  refine ⟨hdown, hmounts, hkeys, ?_, ?_⟩
  · intro hd
    obtain ⟨r1, r2, -, -⟩ := hgood hd
    refine ⟨r1, by rw [r1, hdown]; rfl, ?_⟩
    rw [r2, hmounts, volumesOf, volumesOf, hvm]
  · intro err hd
    obtain ⟨r1, r2, r3, -, -⟩ := hbad err hd
    exact ⟨r1, r2, r3⟩

/-- Witness for C10: the sample node is created and destroyed with every
collaborator succeeding; one download and one release of its cache keys, one
mount and one unmount of its volume. -/
theorem C10_release_and_unmount_witness :
    downloadsOf ((sampleNode .Initializing).Create sampleWorld).2.1 = [["lifecycle"]] ∧
    mountsOf ((sampleNode .Initializing).Create sampleWorld).2.1 = [("nfs", "vol-1")] ∧
    releasesOf (sampleCreatedByCreate.Destroy sampleWorld).2.1 = [["key-1"]] ∧
    unmountsOf (sampleCreatedByCreate.Destroy sampleWorld).2.1 = [("nfs", "vol-1")] := by
  obtain ⟨h1, h2, -, h4, -⟩ :=
    C10_release_and_unmount sampleWorld sampleWorld (sampleNode .Initializing) rfl
  obtain ⟨h5, -, h6⟩ := h4 rfl
  exact ⟨h1, h2, h5, h6.trans h2⟩

/-- Counterexample to C10 as stated: the sample node is created, with one
download and one mount, and the sandbox provider then fails to destroy the
container.  Destroy returns the provider's error and makes no
ReleaseCachedDependencies and no Unmount call. -/
theorem C10_release_and_unmount_counterexample :
    ((sampleNode .Initializing).Create sampleWorld).2.2.isNone = true ∧
    downloadsOf ((sampleNode .Initializing).Create sampleWorld).2.1 = [["lifecycle"]] ∧
    mountsOf ((sampleNode .Initializing).Create sampleWorld).2.1 = [("nfs", "vol-1")] ∧
    (sampleCreatedByCreate.Destroy sampleDestroyFailureWorld).2.2.isSome = true ∧
    releasesOf (sampleCreatedByCreate.Destroy sampleDestroyFailureWorld).2.1 = [] ∧
    unmountsOf (sampleCreatedByCreate.Destroy sampleDestroyFailureWorld).2.1 = [] := by
  decide

/-! ## Cleanup and errors of Destroy (C11, C12) -/

theorem unmountVolumesFrom_failed (w : World) (vs : List VolumeMount) (i : Nat) :
    (unmountVolumesFrom w i vs).2
      = (vs.enumFrom i).any fun (j, volume) => (w.Unmount j volume).isSome := by
  induction vs generalizing i with
  | nil => simp [unmountVolumesFrom]
  | cons v rest ih =>
    simp [unmountVolumesFrom, List.enumFrom_cons, ih (i + 1)]

/-- What Destroy returns once the sandbox destruction step has returned no
error. -/
theorem Destroy_result (w : World) (n : storeNode)
    (h : (n.destroyContainer w).2 = none) :
    (n.Destroy w).2.2
      = if cleanupFails w n.info.RunInfo.VolumeMounts then
          some (.errorString BindMountCleanupFailed)
        else none := by
  have hr := stop_returns_nil n
  obtain ⟨-, hk2, -⟩ := stop_keeps n
  have hres := destroyContainer_result w n.stop.1 n
  unfold storeNode.Destroy
  rcases hstop : n.stop with ⟨n1, c1, r⟩
  rw [hstop] at hr hk2 hres
  simp only at hr hk2 hres
  subst hr
  rcases hdc : n1.destroyContainer w with ⟨c4, e⟩
  rw [hdc, h] at hres
  simp only at hres
  subst hres
  simp only [hdc, hk2, cleanupFails, List.enum]
  rw [unmountVolumesFrom_failed]

/-- C11: in every Destroy whose sandbox destruction step returns no error,
ReleaseCachedDependencies is called once, with the recorded cache keys of the
node, and Unmount is called once for every volume of info.VolumeMounts, in
order, whether or not the release or an earlier unmount failed.  Destroy
returns an error whose message is "failed to cleanup bindmount artifacts" if
one of these cleanup calls failed, and nil otherwise. -/
theorem C11_destroy_cleanup (w : World) (n : storeNode)
    (h : (n.destroyContainer w).2 = none) :
    releasesOf (n.Destroy w).2.1 = [n.bindMountCacheKeys] ∧
    unmountsOf (n.Destroy w).2.1 = volumesOf n.info ∧
    (cleanupFails w n.info.RunInfo.VolumeMounts = true →
      ∃ err, (n.Destroy w).2.2 = some err ∧
        err.Error = "failed to cleanup bindmount artifacts") ∧
    (cleanupFails w n.info.RunInfo.VolumeMounts = false → (n.Destroy w).2.2 = none) := by
  obtain ⟨r1, r2, -, -⟩ := (Destroy_cleanup w n).1 h
  have hres := Destroy_result w n h
  refine ⟨r1, r2, ?_, ?_⟩
  · intro hf
    rw [hf] at hres
    exact ⟨_, hres, rfl⟩
  · intro hf
    rw [hf] at hres
    simpa using hres

/-- Witness for C11: the release of the cache keys and the unmount of the
first of two volumes fail; the second volume is unmounted all the same, and
Destroy returns the cleanup error. -/
theorem C11_destroy_cleanup_witness :
    cleanupFails sampleCleanupFailureWorld sampleTwoVolumeNode.info.RunInfo.VolumeMounts
      = true ∧
    releasesOf (sampleTwoVolumeNode.Destroy sampleCleanupFailureWorld).2.1 = [["key-1"]] ∧
    unmountsOf (sampleTwoVolumeNode.Destroy sampleCleanupFailureWorld).2.1
      = [("nfs", "vol-1"), ("nfs", "vol-2")] ∧
    ∃ err, (sampleTwoVolumeNode.Destroy sampleCleanupFailureWorld).2.2 = some err ∧
      err.Error = "failed to cleanup bindmount artifacts" := by
  obtain ⟨h1, h2, h3, -⟩ :=
    C11_destroy_cleanup sampleCleanupFailureWorld sampleTwoVolumeNode rfl
  exact ⟨by decide, h1, h2, h3 (by decide)⟩

/-- C12: destroyContainer returns nil when the sandbox provider's Destroy
returns nil, a ContainerNotFoundError, or an error whose message is that of
ErrConcurrentDestroy; for every other error of the provider it returns that
error, and Destroy returns it to its caller. -/
theorem C12_destroy_container (w : World) (n : storeNode) :
    (w.GardenDestroy = none → (n.destroyContainer w).2 = none) ∧
    (∀ err, w.GardenDestroy = some err → err.isContainerNotFound = true →
      (n.destroyContainer w).2 = none) ∧
    (∀ err, w.GardenDestroy = some err → err.Error = ErrConcurrentDestroy.Error →
      (n.destroyContainer w).2 = none) ∧
    (∀ err, w.GardenDestroy = some err → err.isContainerNotFound = false →
      err.Error ≠ ErrConcurrentDestroy.Error →
      (n.destroyContainer w).2 = some err ∧ (n.Destroy w).2.2 = some err) := by
  refine ⟨?_, ?_, ?_, ?_⟩
  · intro h
    simp [storeNode.destroyContainer, h]
  · intro err h hnf
    cases err <;> simp [GoError.isContainerNotFound] at hnf
    simp [storeNode.destroyContainer, h]
  · intro err h hmsg
    cases err <;> simp [storeNode.destroyContainer, h, hmsg]
  · intro err h hnf hmsg
    have hd : (n.destroyContainer w).2 = some err := by
      cases err <;> simp [GoError.isContainerNotFound] at hnf <;>
        simp [storeNode.destroyContainer, h, hmsg]
    exact ⟨hd, ((Destroy_cleanup w n).2 err hd).1⟩

/-- Witness for C12: the provider's error "garden is down" is returned by
Destroy; a ContainerNotFoundError is not. -/
theorem C12_destroy_container_witness :
    (sampleCreatedByCreate.destroyContainer sampleDestroyFailureWorld).2
      = some (.errorString "garden is down") ∧
    (sampleCreatedByCreate.Destroy sampleDestroyFailureWorld).2.2
      = some (.errorString "garden is down") ∧
    (sampleCreatedByCreate.destroyContainer
      { sampleWorld with GardenDestroy := some (.ContainerNotFoundError "g1") }).2 = none :=
  ⟨((C12_destroy_container sampleDestroyFailureWorld sampleCreatedByCreate).2.2.2
      (.errorString "garden is down") rfl rfl (by decide)).1,
   ((C12_destroy_container sampleDestroyFailureWorld sampleCreatedByCreate).2.2.2
      (.errorString "garden is down") rfl rfl (by decide)).2,
   (C12_destroy_container
      { sampleWorld with GardenDestroy := some (.ContainerNotFoundError "g1") }
      sampleCreatedByCreate).2.1 (.ContainerNotFoundError "g1") rfl rfl⟩

/-! ## Stop (C13, C14) -/

/-- Every operation leaves a Completed node Completed. -/
theorem state_apply_of_completed (n : storeNode) (op : Op) (h : n.info.State = .Completed) :
    (n.apply op).1.info.State = .Completed := by
  by_cases hop : op.isStopOrDestroy = false
  · rw [apply_of_completed n op h hop]
    exact h
  · have hnode : (n.apply op).1 = n.stop.1 := by
      cases op with
      | Stop => simp [storeNode.apply, storeNode.Stop]
      | Destroy w => simp [storeNode.apply, (Destroy_node w n).1]
      | _ => simp [Op.isStopOrDestroy] at hop
    rw [hnode]
    cases hp : n.process with
    | none => exact (stop_of_no_process n hp).1
    | some p => rw [(stop_of_process n p hp).1, h]

theorem state_applyAll_of_completed (n : storeNode) (ops : List Op)
    (h : n.info.State = .Completed) : (n.applyAll ops).1.info.State = .Completed := by
  induction ops generalizing n with
  | nil => exact h
  | cons op rest ih =>
    simp only [storeNode.applyAll]
    exact ih _ (state_apply_of_completed n op h)

/-- C13: on every store node without supervisor process, Stop returns nil,
sets RunResult.Stopped and completes the node with failed=true and reason
"stopped-before-running"; the one call it makes is the emission of the
Completion event, so nothing is signalled; and a Run called afterwards,
directly or after any further operations, returns ErrInvalidTransition. -/
theorem C13_stop_before_run (n : storeNode) (h : n.process = none) :
    n.Stop.2.2 = none ∧
    n.Stop.1.info.RunResult.Stopped = true ∧
    n.Stop.1.info.State = .Completed ∧
    n.Stop.1.info.RunResult.Failed = true ∧
    n.Stop.1.info.RunResult.FailureReason = "stopped-before-running" ∧
    n.Stop.2.1 = [Call.Emit (.ContainerCompleteEvent n.Stop.1.info)] ∧
    Call.Signal ∉ n.Stop.2.1 ∧
    (∀ w, n.Stop.1.Run w = (n.Stop.1, [], some .ErrInvalidTransition)) ∧
    (∀ ops w, ((n.Stop.1.applyAll ops).1.Run w).2.2 = some .ErrInvalidTransition) := by
  obtain ⟨h1, h2, h3, h4, h5, h6⟩ := stop_of_no_process n h
  refine ⟨h6, h4, h1, h2, h3, h5, ?_, ?_, ?_⟩
  · show Call.Signal ∉ n.stop.2.1
    rw [h5]
    simp
  · intro w
    exact Run_of_not_created w _ (by show n.stop.1.info.State ≠ _; rw [h1]; decide)
  · intro ops w
    have hs := state_applyAll_of_completed n.Stop.1 ops h1
    rw [Run_of_not_created w _ (by rw [hs]; decide)]

/-- Witness for C13 (scenario 4 of the spec): the sample node is initialized
and created, then stopped before any Run. -/
theorem C13_stop_before_run_witness :
    sampleCreatedByCreate.Stop.2.2 = none ∧
    sampleCreatedByCreate.Stop.1.info.RunResult.Stopped = true ∧
    sampleCreatedByCreate.Stop.1.info.State = .Completed ∧
    sampleCreatedByCreate.Stop.1.info.RunResult.Failed = true ∧
    sampleCreatedByCreate.Stop.1.info.RunResult.FailureReason = "stopped-before-running" ∧
    (sampleCreatedByCreate.Stop.1.Run sampleWorld).2.2 = some .ErrInvalidTransition := by
  obtain ⟨h1, h2, h3, h4, h5, -, -, h8, -⟩ := C13_stop_before_run sampleCreatedByCreate rfl
  exact ⟨h1, h2, h3, h4, h5, by rw [h8]⟩

/-- A Stop on a node whose Stopped flag is set and that has a supervisor
leaves the node as it is and signals the supervisor. -/
theorem stop_of_stopped (n : storeNode) (p : Process) (hp : n.process = some p)
    (hs : n.info.RunResult.Stopped = true) : n.stop = (n, [Call.Signal], none) := by
  obtain ⟨a, info, c, d, e, f, g, h, i⟩ := n
  obtain ⟨i1, i2, i3, i4, i5, i6, i7, i8, i9, i10, i11, i12, i13, rr⟩ := info
  obtain ⟨r1, r2, r3⟩ := rr
  simp only at hs hp
  subst hs hp
  simp [storeNode.stop]

/-- C14, as the code has it: a second Stop issued after a first Stop leaves
the node, its info included, as the first Stop left it, returns nil and writes
no second "Stopping instance" line; it repeats the effect of the first Stop:
with a supervisor process attached it signals interrupt once more, and
without one it emits one more Completion event, with the same outcome. -/
theorem C14_second_stop (n : storeNode) :
    n.Stop.1.Stop.1 = n.Stop.1 ∧
    n.Stop.1.Stop.2.2 = none ∧
    (n.process.isSome → n.Stop.1.Stop.2.1 = [Call.Signal]) ∧
    (n.process = none →
      n.Stop.1.Stop.2.1 = [Call.Emit (.ContainerCompleteEvent n.Stop.1.info)]) := by
  cases hp : n.process with
  | some p =>
    have h1 : n.Stop.1.process = some p := by
      simp [storeNode.Stop, storeNode.stop, hp]
    have h2 : n.Stop.1.info.RunResult.Stopped = true := by
      simp [storeNode.Stop, storeNode.stop, hp]
    have h3 := stop_of_stopped n.Stop.1 p h1 h2
    refine ⟨?_, ?_, ?_, ?_⟩
    · show n.Stop.1.stop.1 = _
      rw [h3]
    · show n.Stop.1.stop.2.2 = _
      rw [h3]
    · intro _
      show n.Stop.1.stop.2.1 = _
      rw [h3]
    · intro hn
      simp at hn
  | none =>
    have h1 : n.Stop.1.process = none := by
      simp [storeNode.Stop, storeNode.stop, hp, storeNode.complete]
    have hs := stop_of_no_process n.Stop.1 h1
    have h0 := stop_of_no_process n hp
    have key : n.Stop.1.Stop.1 = n.Stop.1 := by
      simp [storeNode.Stop, storeNode.stop, hp, storeNode.complete,
        Container.TransitionToComplete]
    refine ⟨key, hs.2.2.2.2.2, by simp, fun _ => ?_⟩
    have := hs.2.2.2.2.1
    show n.Stop.1.stop.2.1 = _
    rw [this]
    show [Call.Emit (.ContainerCompleteEvent n.Stop.1.Stop.1.info)] = _
    rw [key]

/-- Witness for C14: the second Stop on the running sample node leaves the
node as the first left it. -/
theorem C14_second_stop_witness :
    sampleRunNode.Stop.1.Stop.1 = sampleRunNode.Stop.1 ∧
    sampleRunNode.Stop.1.Stop.2.1 = [Call.Signal] ∧
    sampleCreatedByCreate.Stop.1.Stop.2.1
      = [Call.Emit (.ContainerCompleteEvent sampleCreatedByCreate.Stop.1.info)] :=
  ⟨(C14_second_stop sampleRunNode).1,
   (C14_second_stop sampleRunNode).2.2.1 (by decide),
   (C14_second_stop sampleCreatedByCreate).2.2.2 (by decide)⟩

/-- Counterexample to C14 as stated: the second Stop on the running sample
node signals the supervisor once more, and the second Stop on the sample node
that was never run emits one more Completion event. -/
theorem C14_second_stop_counterexample :
    sampleRunNode.Stop.2.1 = [Call.Fprintf .Stdout "Stopping instance g1\n", Call.Signal] ∧
    sampleRunNode.Stop.1.Stop.2.1 = [Call.Signal] ∧
    completions sampleCreatedByCreate.Stop.2.1 = 1 ∧
    completions sampleCreatedByCreate.Stop.1.Stop.2.1 = 1 := by
  decide

/-! ## Completion with an error (C15, C17) -/

theorem exited_message_ne_empty (member msg : String) : member ++ " exited: " ++ msg ≠ "" := by
  intro h
  have := congrArg String.length h
  simp [String.length_append] at this
  have h9 : " exited: ".length = 9 := by decide
  omega

mutual
theorem completeWithGoError_eq (n : storeNode) : (err : GoError) →
    n.completeWithGoError err = n.completeWithErrorString err.finalMessage
  | .ErrorTrace exitTrace => by
      have h := completeWithExitTrace_eq n exitTrace
      unfold storeNode.completeWithGoError GoError.finalMessage
      rw [h]
      cases ExitTrace.finalMessage exitTrace <;> rfl
  | .ErrInvalidTransition => by
      unfold storeNode.completeWithGoError GoError.finalMessage
      rfl
  | .ContainerNotFoundError _ => by
      unfold storeNode.completeWithGoError GoError.finalMessage
      rfl
  | .errorString _ => by
      unfold storeNode.completeWithGoError GoError.finalMessage
      rfl
theorem completeWithExitTrace_eq (n : storeNode) : (trace : ExitTrace) →
    n.completeWithExitTrace trace
      = (ExitTrace.finalMessage trace).map n.completeWithErrorString
  | .nil => by
      unfold storeNode.completeWithExitTrace ExitTrace.finalMessage
      rfl
  | .exited _ rest => by
      unfold storeNode.completeWithExitTrace ExitTrace.finalMessage
      exact completeWithExitTrace_eq n rest
  | .failed member err _ => by
      unfold storeNode.completeWithExitTrace ExitTrace.finalMessage
      have h := completeWithGoError_eq n err
      split_ifs with hm
      · rfl
      · rw [h]
        rfl
end

theorem completeWithError_eq (n : storeNode) (err : Option GoError) :
    n.completeWithError err = n.completeWithErrorString (finalMessageOf err) := by
  cases err with
  | none => rfl
  | some e => exact completeWithGoError_eq n e

theorem finalMessage_of_firstFailure : (trace : ExitTrace) → (member : String) →
    (err : GoError) → trace.firstFailure = some (member, err) →
    ExitTrace.finalMessage trace
      = some (if member ≠ "runner" then member ++ " exited: " ++ err.Error
          else err.finalMessage)
  | .nil, _, _, h => by simp [ExitTrace.firstFailure] at h
  | .exited _ rest, member, err, h => by
      unfold ExitTrace.firstFailure at h
      unfold ExitTrace.finalMessage
      exact finalMessage_of_firstFailure rest member err h
  | .failed m e _, member, err, h => by
      unfold ExitTrace.firstFailure at h
      simp only [Option.some.injEq, Prod.mk.injEq] at h
      obtain ⟨rfl, rfl⟩ := h
      unfold ExitTrace.finalMessage
      split_ifs <;> rfl

theorem finalMessage_of_no_firstFailure : (trace : ExitTrace) →
    trace.firstFailure = none → ExitTrace.finalMessage trace = none
  | .nil, _ => by
      unfold ExitTrace.finalMessage
      rfl
  | .exited _ rest, h => by
      unfold ExitTrace.firstFailure at h
      unfold ExitTrace.finalMessage
      exact finalMessage_of_no_firstFailure rest h
  | .failed _ _ _, h => by simp [ExitTrace.firstFailure] at h

/-- An error that is no trace with a failing member is unwrapped no further:
its final message is its own. -/
theorem finalMessage_of_not_failing (err : GoError) (h : err.isFailingTrace = false) :
    err.finalMessage = err.Error := by
  cases err with
  | ErrorTrace trace =>
    unfold GoError.isFailingTrace at h
    have hn : trace.firstFailure = none := by
      cases hf : trace.firstFailure with
      | none => rfl
      | some x => simp [hf] at h
    unfold GoError.finalMessage
    rw [finalMessage_of_no_firstFailure trace hn]
  | ErrInvalidTransition => unfold GoError.finalMessage; rfl
  | ContainerNotFoundError _ => unfold GoError.finalMessage; rfl
  | errorString _ => unfold GoError.finalMessage GoError.Error; rfl


/-- C15, as the code has it: for every ordered-group error trace with at
least one member exit that has an error, completeWithError completes the node
from the first such exit in trace order only.  For a member not named
"runner" it records failed=true with the reason "<member name> exited:
<message>".  For the member named "runner" it goes on with that member's
error as it would with any error: an error that is no trace with a failing
member of its own is recorded by its message, verbatim, and a trace with a
failing member is unwrapped in turn.  Traces with the same first failing exit
complete the node alike, whatever their later exits. -/
theorem C15_first_failure (n : storeNode) (trace : ExitTrace) (member : String)
    (err : GoError) (h : trace.firstFailure = some (member, err)) :
    (member ≠ "runner" →
      n.completeWithError (some (.ErrorTrace trace))
        = n.complete true (member ++ " exited: " ++ err.Error)) ∧
    (member = "runner" →
      n.completeWithError (some (.ErrorTrace trace)) = n.completeWithError (some err)) ∧
    (member = "runner" → err.isFailingTrace = false →
      (n.completeWithError (some (.ErrorTrace trace))).1.info.RunResult.FailureReason
        = err.Error) ∧
    (∀ trace2 : ExitTrace, trace2.firstFailure = some (member, err) →
      n.completeWithError (some (.ErrorTrace trace2))
        = n.completeWithError (some (.ErrorTrace trace))) := by
  have key : ∀ t : ExitTrace, t.firstFailure = some (member, err) →
      n.completeWithError (some (.ErrorTrace t))
        = n.completeWithErrorString
            (if member ≠ "runner" then member ++ " exited: " ++ err.Error
              else err.finalMessage) := by
    intro t ht
    have e : (GoError.ErrorTrace t).finalMessage
        = (if member ≠ "runner" then member ++ " exited: " ++ err.Error
            else err.finalMessage) := by
      conv_lhs => unfold GoError.finalMessage
      rw [finalMessage_of_firstFailure t member err ht]
    rw [completeWithError_eq]
    simp only [finalMessageOf, e]
  refine ⟨?_, ?_, ?_, ?_⟩
  · intro hm
    rw [key trace h, if_pos hm]
    unfold storeNode.completeWithErrorString
    rw [if_pos (exited_message_ne_empty member err.Error)]
  · intro hm
    rw [key trace h, if_neg (by simp [hm]), completeWithError_eq]
    rfl
  · intro hm hnf
    rw [key trace h, if_neg (by simp [hm]), finalMessage_of_not_failing err hnf]
    unfold storeNode.completeWithErrorString
    split_ifs with he
    · simp [storeNode.complete, Container.TransitionToComplete]
    · simp only [ne_eq, not_not] at he
      simp [storeNode.complete, Container.TransitionToComplete, he]
  · intro trace2 h2
    rw [key trace h, key trace2 h2]

/-- Witness for C15: the proxy fails first and the steps runner after it; the
reason recorded is that of the proxy, with its member name. -/
theorem C15_first_failure_witness :
    sampleTrace.firstFailure = some ("proxy-config-runner", .errorString "connection refused") ∧
    sampleRunNode.completeWithError (some (.ErrorTrace sampleTrace))
      = sampleRunNode.complete true "proxy-config-runner exited: connection refused" :=
  ⟨rfl,
   (C15_first_failure sampleRunNode sampleTrace "proxy-config-runner"
      (.errorString "connection refused") rfl).1 (by decide)⟩

/-- Counterexample to C15 as stated: the member named "runner" fails with a
trace of its own, in which the member "action" failed.  The reason recorded is
"action exited: exit status 1", not the message of the runner's error. -/
theorem C15_first_failure_counterexample :
    sampleNestedTrace.firstFailure
      = some ("runner", .ErrorTrace (.failed "action" (.errorString "exit status 1") .nil)) ∧
    (sampleRunNode.completeWithError
        (some (.ErrorTrace sampleNestedTrace))).1.info.RunResult.FailureReason
      = "action exited: exit status 1" ∧
    GoError.Error (.ErrorTrace (.failed "action" (.errorString "exit status 1") .nil))
      = "Exit trace for group:\naction exited with error: exit status 1\n" := by
  refine ⟨rfl, ?_, ?_⟩
  · decide
  · decide

/-- C17: completeWithError records failed=true exactly when the error it
finally unwraps to has a message that is not empty, and records that message
as the reason.  A nil error, and an error whose final message is empty,
complete the node with failed=false and reason "".  The final message of an
error that is no trace with a failing member is the error's own; that of a
trace is "<member name> exited: <message>" for a first failing member not
named "runner", and the final message of that member's error for the member
named "runner". -/
theorem C17_failed_iff_message (n : storeNode) (err : Option GoError) :
    n.completeWithError err
      = n.complete (decide (finalMessageOf err ≠ "")) (finalMessageOf err) ∧
    (n.completeWithError err).1.info.State = .Completed ∧
    (n.completeWithError err).1.info.RunResult.Failed = decide (finalMessageOf err ≠ "") ∧
    (n.completeWithError err).1.info.RunResult.FailureReason = finalMessageOf err ∧
    n.completeWithError none = n.complete false "" ∧
    (∀ e : GoError, e.isFailingTrace = false → finalMessageOf (some e) = e.Error) ∧
    (∀ (trace : ExitTrace) (member : String) (e : GoError),
      trace.firstFailure = some (member, e) →
      finalMessageOf (some (.ErrorTrace trace))
        = if member ≠ "runner" then member ++ " exited: " ++ e.Error
          else finalMessageOf (some e)) := by
  have key : n.completeWithError err
      = n.complete (decide (finalMessageOf err ≠ "")) (finalMessageOf err) := by
    rw [completeWithError_eq]
    unfold storeNode.completeWithErrorString
    split_ifs with he
    · simp [he]
    · simp only [ne_eq, not_not] at he
      simp [he]
  refine ⟨key, ?_, ?_, ?_, rfl, ?_, ?_⟩
  · rw [key]
    exact state_complete _ _ _
  · rw [key]
    simp [storeNode.complete, Container.TransitionToComplete]
  · rw [key]
    simp [storeNode.complete, Container.TransitionToComplete]
  · intro e he
    exact finalMessage_of_not_failing e he
  · intro trace member e ht
    simp only [finalMessageOf]
    conv_lhs => unfold GoError.finalMessage
    rw [finalMessage_of_firstFailure trace member e ht]

/-- Witness for C17: the member named "runner" fails first, with an error
whose message is empty; the node is completed with failed=false and reason
"".  The proxy failing first completes it with failed=true. -/
theorem C17_failed_iff_message_witness :
    (sampleRunNode.completeWithError
        (some (.ErrorTrace sampleEmptyMessageTrace))).1.info.RunResult.Failed = false ∧
    (sampleRunNode.completeWithError
        (some (.ErrorTrace sampleEmptyMessageTrace))).1.info.RunResult.FailureReason = "" ∧
    (sampleRunNode.completeWithError (some (.ErrorTrace sampleTrace))).1.info.RunResult.Failed
      = true :=
  ⟨(C17_failed_iff_message sampleRunNode (some (.ErrorTrace sampleEmptyMessageTrace))).2.2.1,
   (C17_failed_iff_message sampleRunNode (some (.ErrorTrace sampleEmptyMessageTrace))).2.2.2.1,
   (C17_failed_iff_message sampleRunNode (some (.ErrorTrace sampleTrace))).2.2.1.trans
     (by decide)⟩

/-! ## The action runner (C16) -/

theorem performRunAction_calls (w : Warden) (containerHandle : String) (i : Nat)
    (action : RunAction) :
    (performRunAction w containerHandle i action).1
      = [(containerHandle, w.BuildRunScript action)] := by
  unfold performRunAction
  split
  · split <;> rfl
  · rfl
  · split <;> rfl
  · rfl

theorem performRunAction_of_exit_zero (w : Warden) (containerHandle : String) (i : Nat)
    (action : RunAction) (h : w.received i action = some (.exitStatus 0)) :
    performRunAction w containerHandle i action
      = ([(containerHandle, w.BuildRunScript action)], some none) := by
  simp [performRunAction, h]

/-- The loop of Run performs every run action, in order, and returns nil when
each of them exits with status 0. -/
theorem runFrom_of_all_succeed (w : Warden) (containerHandle : String)
    (actions : List ExecutorAction) (j : Nat)
    (h : ∀ i a, actions[i]? = some (.RunAction a) →
      w.received (j + i) a = some (.exitStatus 0)) :
    runFrom w containerHandle j actions = (performs w containerHandle actions, some none) := by
  induction actions generalizing j with
  | nil => rfl
  | cons x rest ih =>
    have hrest : ∀ i a, rest[i]? = some (.RunAction a) →
        w.received (j + 1 + i) a = some (.exitStatus 0) := by
      intro i a hi
      have := h (i + 1) a (by simpa using hi)
      rwa [show j + 1 + i = j + (i + 1) by omega]
    have ih' := ih (j + 1) hrest
    cases x with
    | RunAction a =>
      have h0 := h 0 a (by simp)
      simp only [Nat.add_zero] at h0
      simp [runFrom, performRunAction_of_exit_zero w containerHandle j a h0, ih', performs]
    | CopyAction => simp [runFrom, ih', performs]
    | other => simp [runFrom, ih', performs]

/-- The loop of Run stops at the first run action that fails: it returns the
error of that action and has performed the run actions up to it, in order,
and none after it. -/
theorem runFrom_of_first_failure (w : Warden) (containerHandle : String)
    (actions : List ExecutorAction) (j k : Nat) (a : RunAction) (e : ActionError)
    (hk : actions[k]? = some (.RunAction a))
    (h : ∀ i b, i < k → actions[i]? = some (.RunAction b) →
      w.received (j + i) b = some (.exitStatus 0))
    (he : (performRunAction w containerHandle (j + k) a).2 = some (some e)) :
    runFrom w containerHandle j actions
      = (performs w containerHandle (actions.take (k + 1)), some (some e)) := by
  induction actions generalizing j k with
  | nil => simp at hk
  | cons x rest ih =>
    cases k with
    | zero =>
      simp only [List.getElem?_cons_zero, Option.some.injEq] at hk
      subst hk
      simp only [Nat.add_zero] at he
      have hc := performRunAction_calls w containerHandle j a
      rcases hp : performRunAction w containerHandle j a with ⟨calls, r⟩
      rw [hp] at he hc
      simp only at he hc
      subst he hc
      simp [runFrom, hp, performs]
    | succ k =>
      have hk' : rest[k]? = some (.RunAction a) := by simpa using hk
      have hrest : ∀ i b, i < k → rest[i]? = some (.RunAction b) →
          w.received (j + 1 + i) b = some (.exitStatus 0) := by
        intro i b hi hb
        have := h (i + 1) b (by omega) (by simpa using hb)
        rwa [show j + 1 + i = j + (i + 1) by omega]
      have he' : (performRunAction w containerHandle (j + 1 + k) a).2 = some (some e) := by
        rwa [show j + 1 + k = j + (k + 1) by omega]
      have ih' := ih (j + 1) k hk' hrest he'
      cases x with
      | RunAction b =>
        have h0 := h 0 b (by omega) (by simp)
        simp only [Nat.add_zero] at h0
        simp [runFrom, performRunAction_of_exit_zero w containerHandle j b h0, ih', performs]
      | CopyAction => simp [runFrom, ih', performs]
      | other => simp [runFrom, ih', performs]

/-- C16: for every list of actions, Run performs the run actions in list
order.  When every run action exits with status 0 it performs all of them and
returns nil.  When a run action fails and every run action before it exited
with status 0, Run returns the error of that action and has performed the run
actions up to it and none after it.  A run action fails with the error of the
sandbox client, with "Process returned with exit value: <status>" for a status
other than 0, and with a RunActionTimeoutError when its timer fires. -/
theorem C16_action_runner (w : Warden) (containerHandle : String)
    (actions : List ExecutorAction) :
    ((∀ i a, actions[i]? = some (.RunAction a) → w.received i a = some (.exitStatus 0)) →
      ActionRunner.Run w containerHandle actions
        = (performs w containerHandle actions, some none)) ∧
    (∀ k a e, actions[k]? = some (.RunAction a) →
      (∀ i b, i < k → actions[i]? = some (.RunAction b) →
        w.received i b = some (.exitStatus 0)) →
      (performRunAction w containerHandle k a).2 = some (some e) →
      ActionRunner.Run w containerHandle actions
        = (performs w containerHandle (actions.take (k + 1)), some (some e))) ∧
    (∀ i a,
      (∀ err, w.received i a = some (.err err) →
        (performRunAction w containerHandle i a).2 = some (some (.error err))) ∧
      (∀ status, status ≠ 0 → w.received i a = some (.exitStatus status) →
        (performRunAction w containerHandle i a).2
          = some (some (.error
              (.errorString ("Process returned with exit value: " ++ toString status))))) ∧
      (a.Timeout ≠ 0 → w.received i a = some .timeout →
        (performRunAction w containerHandle i a).2
          = some (some (.RunActionTimeoutError a)))) := by
  refine ⟨?_, ?_, ?_⟩
  · intro h
    exact runFrom_of_all_succeed w containerHandle actions 0
      (fun i a hi => by rw [Nat.zero_add]; exact h i a hi)
  · intro k a e hk h he
    exact runFrom_of_first_failure w containerHandle actions 0 k a e hk
      (fun i b hi hb => by rw [Nat.zero_add]; exact h i b hi hb)
      (by rw [Nat.zero_add]; exact he)
  · intro i a
    refine ⟨?_, ?_, ?_⟩
    · intro err h
      simp [performRunAction, h]
    · intro status hs h
      simp [performRunAction, h, hs]
    · intro ht h
      simp [performRunAction, h, ht]

/-- Witness for C16 (the action runner test): the actions foo and bar both
succeed and are performed in the order foo, bar; when foo exits with status 3,
bar is not performed. -/
theorem C16_action_runner_witness :
    ActionRunner.Run sampleWarden "some-container-handle" sampleActions
      = ([("some-container-handle", "foo"), ("some-container-handle", "bar")], some none) ∧
    ActionRunner.Run sampleFailingWarden "some-container-handle" sampleActions
      = ([("some-container-handle", "foo")],
          some (some (.error (.errorString "Process returned with exit value: 3")))) :=
  ⟨(C16_action_runner sampleWarden "some-container-handle" sampleActions).1
      (fun _ _ _ => rfl),
   (C16_action_runner sampleFailingWarden "some-container-handle" sampleActions).2.1 0
      { Script := "foo", Timeout := 0 } _ rfl (fun i _ hi _ => absurd hi (Nat.not_lt_zero i))
      rfl⟩

/-! ## The terminal state (C3) -/

end Executor
